import Mathlib

/-!
# IBD with headers proof (kaspad, `app/protocol/flows/blockrelay/ibd_with_headers_proof.go`)

A shallow embedding of the flow `handleRelayInvsFlow` as far as the file
`ibd_with_headers_proof.go` defines it.

* Every call that leaves the file (the domain, the live and the staging consensus, the
  peer routes, the helpers of the package that live in other files) is an `Event`.
  The answer of such a call is read from a `World`, as a function of the whole history of
  events so far, so the collaborators may be arbitrarily stateful.
* A `Flow α` takes the history before the call and gives the outcome together with the
  events the call itself performed, in order.
* A Go `panic` is the outcome `panicked`; the only unbounded loop of the file takes fuel,
  and `outOfFuel` is the outcome of a run that needs more of it.
-/

namespace Kaspad

/-! ## Data model -/

/-- The type externalapi.DomainHash: an opaque comparable identifier. -/
abbrev DomainHash := Nat

/-- The type externalapi.BlockHeader; `blueScore` is a uint64, `blueWork` a big integer,
`tag` stands for all remaining fields. -/
structure BlockHeader where
  blueScore : Nat
  blueWork : Int
  tag : Nat
deriving DecidableEq, Repr

/-- The type appmessage.MsgBlockHeader, the wire form of a header. -/
structure MsgBlockHeader where
  blueScore : Nat
  blueWork : Int
  tag : Nat
deriving DecidableEq, Repr

/-- The type externalapi.DomainBlock (the transactions are not read by this file). -/
structure DomainBlock where
  Header : BlockHeader
deriving DecidableEq, Repr

/-- The type appmessage.MsgBlock. -/
structure MsgBlock where
  Header : MsgBlockHeader
deriving DecidableEq, Repr

/-- The type appmessage.MsgBlockWithTrustedData. -/
structure MsgBlockWithTrustedData where
  Block : MsgBlock
  trustedData : Nat
deriving DecidableEq, Repr

/-- The type externalapi.BlockWithTrustedData. -/
structure BlockWithTrustedData where
  Block : DomainBlock
  trustedData : Nat
deriving DecidableEq, Repr

/-- The type appmessage.MsgPruningPointProof: header levels, each an ordered list. -/
structure MsgPruningPointProof where
  Headers : List (List MsgBlockHeader)
deriving DecidableEq, Repr

/-- The type externalapi.PruningPointProof. -/
structure PruningPointProof where
  Headers : List (List BlockHeader)
deriving DecidableEq, Repr

/-- The type appmessage.MsgPruningPoints. -/
structure MsgPruningPoints where
  Headers : List MsgBlockHeader
deriving DecidableEq, Repr

/-- The type externalapi.BlockInfo, with the fields this file reads. -/
structure BlockInfo where
  Exists : Bool
  BlueScore : Nat
  BlueWork : Int
deriving DecidableEq, Repr

/-- Go `error` values that are not nil.
`rule` is a ruleerrors.RuleError, `infra` any other plain error (timeout, closed route,
local I/O), `wrapped` an error wrapping another one, `protocol` and `protocolWrap` are
protocolerrors.ProtocolError values built by `protocolerrors.Errorf` and
`protocolerrors.Wrapf`; the message is the format string. -/
inductive Err where
  | rule (code : Nat)
  | infra (code : Nat)
  | wrapped (cause : Err) (msg : String)
  | protocol (ShouldBan : Bool) (msg : String)
  | protocolWrap (ShouldBan : Bool) (cause : Err) (msg : String)
deriving DecidableEq, Repr

/-- Messages the flow enqueues on its outgoing route. -/
inductive OutMsg where
  | RequestPruningPointProof
  | RequestPruningPointAndItsAnticone
  | RequestPruningPointUTXOSet (pruningPointHash : DomainHash)
deriving DecidableEq, Repr

/-- Messages `dequeueIncomingMessageAndSkipInvs` can hand to this file; `other` is a
message of any other type, identified by its command. -/
inductive Message where
  | PruningPointProof (m : MsgPruningPointProof)
  | PruningPoints (m : MsgPruningPoints)
  | BlockWithTrustedData (m : MsgBlockWithTrustedData)
  | DoneBlocksWithTrustedData
  | other (cmd : Nat)
deriving DecidableEq, Repr

/-- Which consensus handle a helper of the package was given. -/
inductive ConsensusRef where
  | live
  | staging
deriving DecidableEq, Repr

/-- One call that leaves `ibd_with_headers_proof.go`, with its arguments.
The constructors named `Staging...` are methods of `flow.Domain().StagingConsensus()`,
`GetHeadersSelectedTip` to `ArePruningPointsViolatingFinality` are methods of
`flow.Domain().Consensus()`. -/
inductive Event where
  | InitStagingConsensus
  | DeleteStagingConsensus
  | CommitStagingConsensus
  | GetHeadersSelectedTip
  | GetBlockInfo (blockHash : DomainHash)
  | PruningPoint
  | ValidatePruningPointProof (pruningPointProof : PruningPointProof)
  | ArePruningPointsViolatingFinality (headers : List BlockHeader)
  | StagingApplyPruningPointProof (pruningPointProof : PruningPointProof)
  | StagingImportPruningPoints (headers : List BlockHeader)
  | StagingValidateAndInsertBlockWithTrustedData (block : BlockWithTrustedData)
      (validateUTXO : Bool)
  | StagingGetBlockInfo (blockHash : DomainHash)
  | StagingIsValidPruningPoint (blockHash : DomainHash)
  | StagingValidateAndInsertImportedPruningPoint (pruningPointHash : DomainHash)
  | StagingClearImportedPruningPointData
  | Enqueue (message : OutMsg)
  | Dequeue
  | syncPruningPointFutureHeaders (consensus : ConsensusRef)
      (pruningPointHash highHash : DomainHash)
  | validatePruningPointFutureHeaderTimestamps
  | receiveAndInsertPruningPointUTXOSet (consensus : ConsensusRef)
      (pruningPointHash : DomainHash)
  | OnPruningPointUTXOSetOverride
deriving DecidableEq, Repr

/-- Everything outside the file. The first block is configuration and pure helpers of
other packages; every other field answers one kind of `Event`, given the history of all
events before it. -/
structure World where
  PruningDepth : Nat
  GenesisHash : DomainHash
  IsRecoverableError : Err → Bool
  HeaderHash : BlockHeader → DomainHash
  BlockHash : MsgBlockHeader → DomainHash
  BlockHeaderToDomainBlockHeader : MsgBlockHeader → BlockHeader
  MsgPruningPointProofToDomainPruningPointProof : MsgPruningPointProof → PruningPointProof
  BlockWithTrustedDataToDomainBlockWithTrustedData :
    MsgBlockWithTrustedData → BlockWithTrustedData
  InitStagingConsensus : List Event → Option Err
  DeleteStagingConsensus : List Event → Option Err
  CommitStagingConsensus : List Event → Option Err
  GetHeadersSelectedTip : List Event → Except Err DomainHash
  GetBlockInfo : List Event → DomainHash → Except Err BlockInfo
  PruningPoint : List Event → Except Err DomainHash
  ValidatePruningPointProof : List Event → PruningPointProof → Option Err
  ArePruningPointsViolatingFinality : List Event → List BlockHeader → Except Err Bool
  StagingApplyPruningPointProof : List Event → PruningPointProof → Option Err
  StagingImportPruningPoints : List Event → List BlockHeader → Option Err
  StagingValidateAndInsertBlockWithTrustedData :
    List Event → BlockWithTrustedData → Bool → Option Err
  StagingGetBlockInfo : List Event → DomainHash → Except Err BlockInfo
  StagingIsValidPruningPoint : List Event → DomainHash → Except Err Bool
  StagingValidateAndInsertImportedPruningPoint : List Event → DomainHash → Option Err
  StagingClearImportedPruningPointData : List Event → Option Err
  Enqueue : List Event → OutMsg → Option Err
  Dequeue : List Event → Except Err Message
  syncPruningPointFutureHeaders :
    List Event → ConsensusRef → DomainHash → DomainHash → Option Err
  validatePruningPointFutureHeaderTimestamps : List Event → Option Err
  receiveAndInsertPruningPointUTXOSet :
    List Event → ConsensusRef → DomainHash → Bool × Option Err
  OnPruningPointUTXOSetOverride : List Event → Option Err

/-! ## Control flow -/

/-- How a call ends: it returns a value, it panics, or the fuel of the model ran out. -/
inductive Outcome (α : Type) where
  | returned (a : α)
  | panicked (msg : String)
  | outOfFuel
deriving DecidableEq, Repr

/-- The call returned: it neither panicked nor ran out of fuel. -/
def Outcome.isReturned {α : Type} : Outcome α → Bool
  | Outcome.returned _ => true
  | _ => false

/-- A computation of the flow: from the history before it, the outcome and the events
it performed itself, in order. -/
structure Flow (α : Type) where
  run : List Event → Outcome α × List Event

/-- A computation that returns at once. -/
def Flow.pure {α : Type} (a : α) : Flow α := ⟨fun _ => (Outcome.returned a, [])⟩

/-- Sequencing: the second computation sees the history extended by the events of the
first; a panic or a lack of fuel ends the run. -/
def Flow.bind {α β : Type} (x : Flow α) (f : α → Flow β) : Flow β := ⟨fun tr =>
  match x.run tr with
  | (Outcome.returned a, e1) => (((f a).run (tr ++ e1)).1, e1 ++ ((f a).run (tr ++ e1)).2)
  | (Outcome.panicked m, e1) => (Outcome.panicked m, e1)
  | (Outcome.outOfFuel, e1) => (Outcome.outOfFuel, e1)⟩

instance : Monad Flow where
  pure := Flow.pure
  bind := Flow.bind

/-- One call out of the file: log the event, read the answer from the world. -/
def Flow.call {ρ : Type} (ev : Event) (answer : List Event → ρ) : Flow ρ :=
  ⟨fun tr => (Outcome.returned (answer tr), [ev])⟩

/-- A Go panic. -/
def Flow.panic {α : Type} (msg : String) : Flow α := ⟨fun _ => (Outcome.panicked msg, [])⟩

/-- The loop of the model needs more fuel. -/
def Flow.outOfFuel {α : Type} : Flow α := ⟨fun _ => (Outcome.outOfFuel, [])⟩

/-- Go `defer`: the deferred computation runs when the body returned and also when it
panicked; a panic of the deferred computation replaces the outcome. -/
def Flow.withDefer {α : Type} (body : Flow α) (deferred : Flow Unit) : Flow α := ⟨fun tr =>
  match body.run tr with
  | (Outcome.outOfFuel, e1) => (Outcome.outOfFuel, e1)
  | (r, e1) =>
    match deferred.run (tr ++ e1) with
    | (Outcome.returned _, e2) => (r, e1 ++ e2)
    | (Outcome.panicked m, e2) => (Outcome.panicked m, e1 ++ e2)
    | (Outcome.outOfFuel, e2) => (Outcome.outOfFuel, e1 ++ e2)⟩

/-- Modelled from the spec: the function protocolerrors.Errorf(shouldBan, format, ...)
of the package protocolerrors, a protocol error carrying the ban flag. -/
def protocolerrors.Errorf (shouldBan : Bool) (format : String) : Err :=
  Err.protocol shouldBan format

/-- Modelled from the spec: the function protocolerrors.Wrapf(shouldBan, cause, format,
...) of the package protocolerrors, a protocol error carrying the ban flag and wrapping
its cause. -/
def protocolerrors.Wrapf (shouldBan : Bool) (cause : Err) (format : String) : Err :=
  Err.protocolWrap shouldBan cause format

/-- The ban flag of an error: the field ShouldBan of a ProtocolError, false for every
other error. -/
def Err.shouldBan : Err → Bool
  | Err.protocol b _ => b
  | Err.protocolWrap b _ _ => b
  | _ => false

/-- The check errors.As(err, &ruleerrors.RuleError{}): some error of the chain is a
rule error. -/
def Err.isRuleError : Err → Bool
  | Err.rule _ => true
  | Err.infra _ => false
  | Err.wrapped c _ => c.isRuleError
  | Err.protocol _ _ => false
  | Err.protocolWrap _ c _ => c.isRuleError

/-- The method big.Int.Cmp: -1, 0 or 1. -/
def bigIntCmp (x y : Int) : Int :=
  if x < y then -1 else if x = y then 0 else 1

/-! ## The functions of `ibd_with_headers_proof.go` -/

/-- Go: checkIfHighHashHasMoreBlueWorkThanSelectedTipAndPruningDepthMoreBlueScore.
The sum of the two uint64 values wraps at 2^64. -/
def checkIfHighHashHasMoreBlueWorkThanSelectedTipAndPruningDepthMoreBlueScore
    (w : World) (highBlock : DomainBlock) : Flow (Bool × Option Err) := do
  let r ← Flow.call Event.GetHeadersSelectedTip w.GetHeadersSelectedTip
  match r with
  | Except.error err => pure (false, some err)
  | Except.ok headersSelectedTip =>
    let r ← Flow.call (Event.GetBlockInfo headersSelectedTip)
      (fun tr => w.GetBlockInfo tr headersSelectedTip)
    match r with
    | Except.error err => pure (false, some err)
    | Except.ok headersSelectedTipInfo =>
      if highBlock.Header.blueScore <
          (headersSelectedTipInfo.BlueScore + w.PruningDepth) % 2 ^ 64 then
        pure (false, none)
      else
        pure (decide (bigIntCmp highBlock.Header.blueWork headersSelectedTipInfo.BlueWork > 0),
          none)

/-- Go: shouldSyncAndShouldDownloadHeadersProof; the result is
(shouldDownload, shouldSync, err). -/
def shouldSyncAndShouldDownloadHeadersProof (w : World) (highBlock : DomainBlock)
    (highestSharedBlockFound : Bool) : Flow (Bool × Bool × Option Err) :=
  if !highestSharedBlockFound then do
    let r ← checkIfHighHashHasMoreBlueWorkThanSelectedTipAndPruningDepthMoreBlueScore w
      highBlock
    match r with
    | (_, some err) => pure (false, false, some err)
    | (hasMoreBlueWorkThanSelectedTipAndPruningDepthMoreBlueScore, none) =>
      if hasMoreBlueWorkThanSelectedTipAndPruningDepthMoreBlueScore then
        pure (true, true, none)
      else
        pure (false, false, none)
  else
    pure (false, true, none)

/-- Go: syncAndValidatePruningPointProof. The last line indexes
`Headers[0][len(Headers[0])-1]`, which panics on an empty proof or an empty level 0. -/
def syncAndValidatePruningPointProof (w : World) : Flow (Except Err DomainHash) := do
  let err ← Flow.call (Event.Enqueue OutMsg.RequestPruningPointProof)
    (fun tr => w.Enqueue tr OutMsg.RequestPruningPointProof)
  match err with
  | some e => pure (Except.error e)
  | none =>
    let r ← Flow.call Event.Dequeue w.Dequeue
    match r with
    | Except.error e => pure (Except.error e)
    | Except.ok (Message.PruningPointProof pruningPointProofMessage) =>
      let pruningPointProof :=
        w.MsgPruningPointProofToDomainPruningPointProof pruningPointProofMessage
      let err ← Flow.call (Event.ValidatePruningPointProof pruningPointProof)
        (fun tr => w.ValidatePruningPointProof tr pruningPointProof)
      match err with
      | some e =>
        if e.isRuleError then
          pure (Except.error
            (protocolerrors.Wrapf true e "pruning point proof validation failed"))
        else
          pure (Except.error e)
      | none =>
        let err ← Flow.call (Event.StagingApplyPruningPointProof pruningPointProof)
          (fun tr => w.StagingApplyPruningPointProof tr pruningPointProof)
        match err with
        | some e => pure (Except.error e)
        | none =>
          match pruningPointProof.Headers.head? with
          | none => Flow.panic "index out of range [0] with length 0"
          | some level0 =>
            match level0.getLast? with
            | none => Flow.panic "index out of range [-1]"
            | some header => pure (Except.ok (w.HeaderHash header))
    | Except.ok _ =>
      pure (Except.error (protocolerrors.Errorf true
        "received unexpected message type. expected: %s, got: %s"))

/-- Go: processBlockWithTrustedData, always called with the staging consensus. -/
def processBlockWithTrustedData (w : World) (block : MsgBlockWithTrustedData) :
    Flow (Option Err) :=
  Flow.call
    (Event.StagingValidateAndInsertBlockWithTrustedData
      (w.BlockWithTrustedDataToDomainBlockWithTrustedData block) false)
    (fun tr => w.StagingValidateAndInsertBlockWithTrustedData tr
      (w.BlockWithTrustedDataToDomainBlockWithTrustedData block) false)

/-- Go: receiveBlockWithTrustedData; the result is (message, done, err). -/
def receiveBlockWithTrustedData (w : World) :
    Flow (Option MsgBlockWithTrustedData × Bool × Option Err) := do
  let r ← Flow.call Event.Dequeue w.Dequeue
  match r with
  | Except.error err => pure (none, false, some err)
  | Except.ok (Message.BlockWithTrustedData downCastedMessage) =>
    pure (some downCastedMessage, false, none)
  | Except.ok Message.DoneBlocksWithTrustedData => pure (none, true, none)
  | Except.ok _ =>
    pure (none, false, some (protocolerrors.Errorf true
      "received unexpected message type. expected: %s or %s, got: %s"))

/-- Go: receivePruningPoints. -/
def receivePruningPoints (w : World) : Flow (Except Err MsgPruningPoints) := do
  let r ← Flow.call Event.Dequeue w.Dequeue
  match r with
  | Except.error err => pure (Except.error err)
  | Except.ok (Message.PruningPoints msgPruningPoints) => pure (Except.ok msgPruningPoints)
  | Except.ok _ =>
    pure (Except.error (protocolerrors.Errorf true
      "received unexpected message type. expected: %s, got: %s"))

/-- Go: validateAndInsertPruningPoints. `headers[len(headers)-1]` panics on an empty
list. -/
def validateAndInsertPruningPoints (w : World) (proofPruningPoint : DomainHash) :
    Flow (Option Err) := do
  let r ← Flow.call Event.PruningPoint w.PruningPoint
  match r with
  | Except.error err => pure (some err)
  | Except.ok currentPruningPoint =>
    if currentPruningPoint = proofPruningPoint then
      pure (some (protocolerrors.Errorf true
        "the proposed pruning point is the same as the current pruning point"))
    else do
      let r ← receivePruningPoints w
      match r with
      | Except.error err => pure (some err)
      | Except.ok pruningPoints =>
        let headers := pruningPoints.Headers.map w.BlockHeaderToDomainBlockHeader
        let r ← Flow.call (Event.ArePruningPointsViolatingFinality headers)
          (fun tr => w.ArePruningPointsViolatingFinality tr headers)
        match r with
        | Except.error err => pure (some err)
        | Except.ok arePruningPointsViolatingFinality =>
          if arePruningPointsViolatingFinality then
            pure (some (protocolerrors.Errorf false "pruning points are violating finality"))
          else
            match headers.getLast? with
            | none => Flow.panic "index out of range [-1]"
            | some lastHeader =>
              let lastPruningPoint := w.HeaderHash lastHeader
              if lastPruningPoint ≠ proofPruningPoint then
                pure (some (protocolerrors.Errorf true
                  "the proof pruning point is not equal to the last pruning point in the list"))
              else do
                let err ← Flow.call (Event.StagingImportPruningPoints headers)
                  (fun tr => w.StagingImportPruningPoints tr headers)
                match err with
                | some e => pure (some e)
                | none => pure none

/-- The `for` loop of syncPruningPointsAndPruningPointAnticone (lines 192 to 206) and the
return after it; every iteration costs one unit of fuel. -/
def anticoneLoop (w : World) : Nat → Flow (Option Err)
  | 0 => Flow.outOfFuel
  | fuel + 1 => do
    let r ← receiveBlockWithTrustedData w
    match r with
    | (_, _, some err) => pure (some err)
    | (_, true, none) => pure none
    | (none, false, none) => Flow.panic "nil pointer dereference"
    | (some blockWithTrustedData, false, none) =>
      let err ← processBlockWithTrustedData w blockWithTrustedData
      match err with
      | some e => pure (some e)
      | none => anticoneLoop w fuel

/-- Go: syncPruningPointsAndPruningPointAnticone. -/
def syncPruningPointsAndPruningPointAnticone (w : World) (fuel : Nat)
    (proofPruningPoint : DomainHash) : Flow (Option Err) := do
  let err ← Flow.call (Event.Enqueue OutMsg.RequestPruningPointAndItsAnticone)
    (fun tr => w.Enqueue tr OutMsg.RequestPruningPointAndItsAnticone)
  match err with
  | some e => pure (some e)
  | none =>
    let err ← validateAndInsertPruningPoints w proofPruningPoint
    match err with
    | some e => pure (some e)
    | none =>
      let r ← receiveBlockWithTrustedData w
      match r with
      | (_, _, some err) => pure (some err)
      | (_, true, none) =>
        pure (some (protocolerrors.Errorf true
          "got `done` message before receiving the pruning point"))
      | (none, false, none) => Flow.panic "nil pointer dereference"
      | (some pruningPointWithMetaData, false, none) =>
        if w.BlockHash pruningPointWithMetaData.Block.Header ≠ proofPruningPoint then
          pure (some (protocolerrors.Errorf true
            "first block with trusted data is not the pruning point"))
        else do
          let err ← processBlockWithTrustedData w pruningPointWithMetaData
          match err with
          | some e => pure (some e)
          | none => anticoneLoop w fuel

/-- Modelled from the spec: the value ruleerrors.ErrSuggestedPruningViolatesFinality of
the package ruleerrors, one specific rule error. -/
def ruleerrors.ErrSuggestedPruningViolatesFinality : Err := Err.rule 0

/-- The check errors.Is(err, target): some error of the chain equals the target. -/
def Err.is (err target : Err) : Bool :=
  decide (err = target) ||
    match err with
    | Err.wrapped c _ => c.is target
    | Err.protocolWrap _ c _ => c.is target
    | _ => false

/-- Modelled from the spec: the function
protocolerrors.ConvertToBanningProtocolErrorIfRuleError of the package protocolerrors:
a rule error becomes a banning protocol error, any other error is left unchanged. -/
def protocolerrors.ConvertToBanningProtocolErrorIfRuleError (err : Err) (format : String) :
    Err :=
  if err.isRuleError then protocolerrors.Wrapf true err format else err

/-- The body of fetchMissingUTXOSet, lines 336 to 363, without the deferred call. -/
def fetchMissingUTXOSetBody (w : World) (consensus : ConsensusRef)
    (pruningPointHash : DomainHash) : Flow (Bool × Option Err) := do
  let err ← Flow.call (Event.Enqueue (OutMsg.RequestPruningPointUTXOSet pruningPointHash))
    (fun tr => w.Enqueue tr (OutMsg.RequestPruningPointUTXOSet pruningPointHash))
  match err with
  | some e => pure (false, some e)
  | none =>
    let r ← Flow.call (Event.receiveAndInsertPruningPointUTXOSet consensus pruningPointHash)
      (fun tr => w.receiveAndInsertPruningPointUTXOSet tr consensus pruningPointHash)
    match r with
    | (_, some e) => pure (false, some e)
    | (false, none) => pure (false, none)
    | (true, none) =>
      let err ← Flow.call (Event.StagingValidateAndInsertImportedPruningPoint pruningPointHash)
        (fun tr => w.StagingValidateAndInsertImportedPruningPoint tr pruningPointHash)
      match err with
      | some e =>
        if e.is ruleerrors.ErrSuggestedPruningViolatesFinality then
          pure (false, none)
        else
          pure (false, some (protocolerrors.ConvertToBanningProtocolErrorIfRuleError e
            "error with pruning point UTXO set"))
      | none =>
        let err ← Flow.call Event.OnPruningPointUTXOSetOverride w.OnPruningPointUTXOSetOverride
        match err with
        | some e => pure (false, some e)
        | none => pure (true, none)

/-- The deferred function of fetchMissingUTXOSet, lines 329 to 334. -/
def fetchMissingUTXOSetDeferred (w : World) : Flow Unit := do
  let err ← Flow.call Event.StagingClearImportedPruningPointData
    w.StagingClearImportedPruningPointData
  match err with
  | some _ => Flow.panic "failed to clear imported pruning point data: %s"
  | none => pure ()

/-- Go: fetchMissingUTXOSet; the result is (succeed, err). -/
def fetchMissingUTXOSet (w : World) (consensus : ConsensusRef)
    (pruningPointHash : DomainHash) : Flow (Bool × Option Err) :=
  Flow.withDefer (fetchMissingUTXOSetBody w consensus pruningPointHash)
    (fetchMissingUTXOSetDeferred w)

/-- Go: syncPruningPointUTXOSet. -/
def syncPruningPointUTXOSet (w : World) (consensus : ConsensusRef)
    (pruningPoint : DomainHash) : Flow (Bool × Option Err) := do
  let r ← Flow.call (Event.StagingIsValidPruningPoint pruningPoint)
    (fun tr => w.StagingIsValidPruningPoint tr pruningPoint)
  match r with
  | Except.error err => pure (false, some err)
  | Except.ok isValid =>
    if !isValid then
      pure (false, some (protocolerrors.Errorf true "invalid pruning point %s"))
    else do
      let r ← fetchMissingUTXOSet w consensus pruningPoint
      match r with
      | (_, some err) => pure (false, some err)
      | (isSuccessful, none) =>
        if !isSuccessful then
          pure (false, none)
        else
          pure (true, none)

/-- Go: downloadHeadersAndPruningUTXOSet. -/
def downloadHeadersAndPruningUTXOSet (w : World) (fuel : Nat) (highHash : DomainHash) :
    Flow (Option Err) := do
  let r ← syncAndValidatePruningPointProof w
  match r with
  | Except.error err => pure (some err)
  | Except.ok proofPruningPoint =>
    let err ← syncPruningPointsAndPruningPointAnticone w fuel proofPruningPoint
    match err with
    | some e => pure (some e)
    | none =>
      if proofPruningPoint = w.GenesisHash then
        pure (some (protocolerrors.Errorf true "the genesis pruning point violates finality"))
      else do
        let err ← Flow.call
          (Event.syncPruningPointFutureHeaders ConsensusRef.staging proofPruningPoint highHash)
          (fun tr => w.syncPruningPointFutureHeaders tr ConsensusRef.staging
            proofPruningPoint highHash)
        match err with
        | some e => pure (some e)
        | none =>
          let r ← Flow.call (Event.StagingGetBlockInfo highHash)
            (fun tr => w.StagingGetBlockInfo tr highHash)
          match r with
          | Except.error e => pure (some e)
          | Except.ok highHashInfo =>
            if !highHashInfo.Exists then
              pure (some (protocolerrors.Errorf true "the triggering IBD block was not sent"))
            else do
              let err ← Flow.call Event.validatePruningPointFutureHeaderTimestamps
                w.validatePruningPointFutureHeaderTimestamps
              match err with
              | some e => pure (some e)
              | none =>
                let r ← syncPruningPointUTXOSet w ConsensusRef.staging proofPruningPoint
                match r with
                | (_, some e) => pure (some e)
                | (syncedPruningPointUTXOSetSuccessfully, none) =>
                  if !syncedPruningPointUTXOSetSuccessfully then
                    pure none
                  else
                    pure none

/-- Go: ibdWithHeadersProof. -/
def ibdWithHeadersProof (w : World) (fuel : Nat) (highHash : DomainHash) :
    Flow (Option Err) := do
  let err ← Flow.call Event.InitStagingConsensus w.InitStagingConsensus
  match err with
  | some e => pure (some e)
  | none =>
    let err ← downloadHeadersAndPruningUTXOSet w fuel highHash
    match err with
    | some e =>
      if !w.IsRecoverableError e then
        pure (some e)
      else do
        let deleteStagingConsensusErr ←
          Flow.call Event.DeleteStagingConsensus w.DeleteStagingConsensus
        match deleteStagingConsensusErr with
        | some d => pure (some d)
        | none => pure (some e)
    | none =>
      let err ← Flow.call Event.CommitStagingConsensus w.CommitStagingConsensus
      match err with
      | some e => pure (some e)
      | none => pure none

/-! ## A concrete session, for evaluation

`scriptedWorld` answers every call with success; the peer sends, in this order, the
messages of `script`, one for each `Dequeue`, and then nothing but `Done`. -/

/-- The number of `Dequeue` events of a history. -/
def dequeueCount (tr : List Event) : Nat := tr.count Event.Dequeue

/-- A world in which every collaborator succeeds; the hash of a header is its `tag`. -/
def scriptedWorld (script : List Message) : World where
  PruningDepth := 50
  GenesisHash := 0
  IsRecoverableError := fun _ => true
  HeaderHash := fun h => h.tag
  BlockHash := fun h => h.tag
  BlockHeaderToDomainBlockHeader := fun h => ⟨h.blueScore, h.blueWork, h.tag⟩
  MsgPruningPointProofToDomainPruningPointProof := fun m =>
    ⟨m.Headers.map (fun l => l.map (fun h => ⟨h.blueScore, h.blueWork, h.tag⟩))⟩
  BlockWithTrustedDataToDomainBlockWithTrustedData := fun m =>
    ⟨⟨⟨m.Block.Header.blueScore, m.Block.Header.blueWork, m.Block.Header.tag⟩⟩, m.trustedData⟩
  InitStagingConsensus := fun _ => none
  DeleteStagingConsensus := fun _ => none
  CommitStagingConsensus := fun _ => none
  GetHeadersSelectedTip := fun _ => Except.ok 1
  GetBlockInfo := fun _ _ => Except.ok ⟨true, 100, 10⟩
  PruningPoint := fun _ => Except.ok 1
  ValidatePruningPointProof := fun _ _ => none
  ArePruningPointsViolatingFinality := fun _ _ => Except.ok false
  StagingApplyPruningPointProof := fun _ _ => none
  StagingImportPruningPoints := fun _ _ => none
  StagingValidateAndInsertBlockWithTrustedData := fun _ _ _ => none
  StagingGetBlockInfo := fun _ _ => Except.ok ⟨true, 200, 20⟩
  StagingIsValidPruningPoint := fun _ _ => Except.ok true
  StagingValidateAndInsertImportedPruningPoint := fun _ _ => none
  StagingClearImportedPruningPointData := fun _ => none
  Enqueue := fun _ _ => none
  Dequeue := fun tr => Except.ok ((script.get? (dequeueCount tr)).getD
    Message.DoneBlocksWithTrustedData)
  syncPruningPointFutureHeaders := fun _ _ _ _ => none
  validatePruningPointFutureHeaderTimestamps := fun _ => none
  receiveAndInsertPruningPointUTXOSet := fun _ _ _ => (true, none)
  OnPruningPointUTXOSetOverride := fun _ => none

/-- A header on the wire whose hash is `tag`. -/
def wireHeader (tag : Nat) : MsgBlockHeader := ⟨0, 0, tag⟩

/-- A full session of an honest peer: a proof whose level 0 ends in the header 7, the
pruning points 5 and 7, the pruning point 7 with trusted data, one anticone block, and
the end of the stream. -/
def honestScript : List Message :=
  [Message.PruningPointProof ⟨[[wireHeader 5, wireHeader 7], [wireHeader 7]]⟩,
   Message.PruningPoints ⟨[wireHeader 5, wireHeader 7]⟩,
   Message.BlockWithTrustedData ⟨⟨wireHeader 7⟩, 0⟩,
   Message.BlockWithTrustedData ⟨⟨wireHeader 8⟩, 0⟩,
   Message.DoneBlocksWithTrustedData]

/-- The local tip has blue score 2^64 - 50 and blue work 10; the pruning depth is 50. -/
def overflowWorld : World :=
  { scriptedWorld [] with
    GetBlockInfo := fun _ _ => Except.ok ⟨true, 18446744073709551566, 10⟩ }

/-- A block with blue score 3 and blue work 11. -/
def lowScoreBlock : DomainBlock := ⟨⟨3, 11, 0⟩⟩

/-- The link to the peer is dead: every Enqueue fails with the same plain error.
`recoverable` is the answer of IsRecoverableError, `deleteErr` that of
DeleteStagingConsensus. -/
def deadLinkWorld (recoverable : Bool) (deleteErr : Option Err) : World :=
  { scriptedWorld [] with
    Enqueue := fun _ _ => some (Err.infra 1)
    IsRecoverableError := fun _ => recoverable
    DeleteStagingConsensus := fun _ => deleteErr }

/-- An honest session in which the UTXO stream is reported incomplete. -/
def softAbortWorld : World :=
  { scriptedWorld honestScript with
    receiveAndInsertPruningPointUTXOSet := fun _ _ _ => (false, none) }

/-- The header 5 as a domain header. -/
def header5 : BlockHeader := ⟨0, 0, 5⟩

/-- The header 7 as a domain header. -/
def header7 : BlockHeader := ⟨0, 0, 7⟩

/-- The calls of the session of `softAbortWorld` up to the start of the UTXO-set sync. -/
def softAbortHeadersTrace : List Event :=
  [Event.InitStagingConsensus,
   Event.Enqueue OutMsg.RequestPruningPointProof,
   Event.Dequeue,
   Event.ValidatePruningPointProof ⟨[[header5, header7], [header7]]⟩,
   Event.StagingApplyPruningPointProof ⟨[[header5, header7], [header7]]⟩,
   Event.Enqueue OutMsg.RequestPruningPointAndItsAnticone,
   Event.PruningPoint,
   Event.Dequeue,
   Event.ArePruningPointsViolatingFinality [header5, header7],
   Event.StagingImportPruningPoints [header5, header7],
   Event.Dequeue,
   Event.StagingValidateAndInsertBlockWithTrustedData ⟨⟨header7⟩, 0⟩ false,
   Event.Dequeue,
   Event.StagingValidateAndInsertBlockWithTrustedData ⟨⟨⟨0, 0, 8⟩⟩, 0⟩ false,
   Event.Dequeue,
   Event.syncPruningPointFutureHeaders ConsensusRef.staging 7 99,
   Event.StagingGetBlockInfo 99,
   Event.validatePruningPointFutureHeaderTimestamps]

/-- The calls of the UTXO-set sync of the session of `softAbortWorld`. -/
def softAbortUTXOTrace : List Event :=
  [Event.StagingIsValidPruningPoint 7,
   Event.Enqueue (OutMsg.RequestPruningPointUTXOSet 7),
   Event.receiveAndInsertPruningPointUTXOSet ConsensusRef.staging 7,
   Event.StagingClearImportedPruningPointData]

/-- The peer sends the pruning points 5 and 6, and the live consensus reports that the
list violates finality. -/
def finalityViolationWorld : World :=
  { scriptedWorld [Message.PruningPoints ⟨[wireHeader 5, wireHeader 6]⟩] with
    ArePruningPointsViolatingFinality := fun _ _ => Except.ok true }

/-- The peer sends the pruning points 5 and 6 and the list is final. -/
def mismatchWorld : World :=
  scriptedWorld [Message.PruningPoints ⟨[wireHeader 5, wireHeader 6]⟩]

/-- The peer sends the pruning points 5 and 7 and the list is final. -/
def pruningPointsWorld : World :=
  scriptedWorld [Message.PruningPoints ⟨[wireHeader 5, wireHeader 7]⟩]

/-- The peer sends the pruning points 5 and 7 and then ends the trusted-data stream. -/
def doneFirstWorld : World :=
  scriptedWorld [Message.PruningPoints ⟨[wireHeader 5, wireHeader 7]⟩,
    Message.DoneBlocksWithTrustedData]

/-- An honest session in which staging does not know the triggering block after the
headers were downloaded. -/
def missingBlockWorld : World :=
  { scriptedWorld honestScript with
    StagingGetBlockInfo := fun _ _ => Except.ok ⟨false, 0, 0⟩ }

/-- The calls of the proof phase of an honest session. -/
def honestProofTrace : List Event :=
  [Event.Enqueue OutMsg.RequestPruningPointProof,
   Event.Dequeue,
   Event.ValidatePruningPointProof ⟨[[header5, header7], [header7]]⟩,
   Event.StagingApplyPruningPointProof ⟨[[header5, header7], [header7]]⟩]

/-- The calls of the pruning-points and anticone phase of an honest session. -/
def honestAnticoneTrace : List Event :=
  [Event.Enqueue OutMsg.RequestPruningPointAndItsAnticone,
   Event.PruningPoint,
   Event.Dequeue,
   Event.ArePruningPointsViolatingFinality [header5, header7],
   Event.StagingImportPruningPoints [header5, header7],
   Event.Dequeue,
   Event.StagingValidateAndInsertBlockWithTrustedData ⟨⟨header7⟩, 0⟩ false,
   Event.Dequeue,
   Event.StagingValidateAndInsertBlockWithTrustedData ⟨⟨⟨0, 0, 8⟩⟩, 0⟩ false,
   Event.Dequeue]

/-- An honest session in which the genesis hash is 7, the pruning point the proof
claims. -/
def genesisWorld : World :=
  { scriptedWorld honestScript with GenesisHash := 7 }

/-- The honest proof of the sessions above, on the wire. -/
def honestProofMessage : MsgPruningPointProof :=
  ⟨[[wireHeader 5, wireHeader 7], [wireHeader 7]]⟩

/-- The peer sends the honest proof and the live consensus rejects it with `validateErr`. -/
def rejectedProofWorld (validateErr : Err) : World :=
  { scriptedWorld [Message.PruningPointProof honestProofMessage] with
    ValidatePruningPointProof := fun _ _ => some validateErr }

/-- The peer sends a proof whose level 0 is empty, and every collaborator accepts it. -/
def emptyProofWorld : World :=
  scriptedWorld [Message.PruningPointProof ⟨[[]]⟩]

/-- The whole UTXO stream is received, and the validation of the imported pruning point
fails with an error that wraps ErrSuggestedPruningViolatesFinality; `clearErr` is the
answer of ClearImportedPruningPointData. -/
def finalityConflictWorld (clearErr : Option Err) : World :=
  { scriptedWorld [] with
    StagingValidateAndInsertImportedPruningPoint := fun _ _ =>
      some (Err.wrapped ruleerrors.ErrSuggestedPruningViolatesFinality "utxo set")
    StagingClearImportedPruningPointData := fun _ => clearErr }

/-- The UTXO stream is reported incomplete. -/
def incompleteStreamWorld : World :=
  { scriptedWorld [] with
    receiveAndInsertPruningPointUTXOSet := fun _ _ _ => (false, none) }

/-- Every collaborator succeeds, except that ClearImportedPruningPointData fails. -/
def clearFailsWorld : World :=
  { scriptedWorld [] with
    StagingClearImportedPruningPointData := fun _ => some (Err.infra 9) }

/-- The peer sends a PruningPoints frame with an empty header list; the finality check
reports no violation. -/
def emptyFrameWorld : World :=
  scriptedWorld [Message.PruningPoints ⟨[]⟩]

/-! ## Running a flow -/

@[simp] theorem Flow.run_pure {α : Type} (a : α) (tr : List Event) :
    (Pure.pure a : Flow α).run tr = (Outcome.returned a, []) := rfl

@[simp] theorem Flow.run_bind {α β : Type} (x : Flow α) (f : α → Flow β) (tr : List Event) :
    (x >>= f).run tr = (Flow.bind x f).run tr := rfl

@[simp] theorem Flow.bind_call {ρ β : Type} (ev : Event) (answer : List Event → ρ)
    (f : ρ → Flow β) (tr : List Event) :
    (Flow.bind (Flow.call ev answer) f).run tr =
      (((f (answer tr)).run (tr ++ [ev])).1, ev :: ((f (answer tr)).run (tr ++ [ev])).2) := rfl

@[simp] theorem Flow.run_call {ρ : Type} (ev : Event) (answer : List Event → ρ)
    (tr : List Event) :
    (Flow.call ev answer).run tr = (Outcome.returned (answer tr), [ev]) := rfl

@[simp] theorem Flow.run_panic {α : Type} (msg : String) (tr : List Event) :
    (Flow.panic msg : Flow α).run tr = (Outcome.panicked msg, []) := rfl

@[simp] theorem Flow.run_outOfFuel {α : Type} (tr : List Event) :
    (Flow.outOfFuel : Flow α).run tr = (Outcome.outOfFuel, []) := rfl

@[simp] theorem Flow.run_ite {α : Type} (c : Prop) [Decidable c] (x y : Flow α)
    (tr : List Event) : (if c then x else y).run tr = if c then x.run tr else y.run tr := by
  split <;> rfl

/-- Sequencing after a computation whose run is known to return. -/
theorem Flow.bind_returned {α β : Type} (x : Flow α) (f : α → Flow β) (tr : List Event)
    (a : α) (e1 : List Event) (h : x.run tr = (Outcome.returned a, e1)) :
    (Flow.bind x f).run tr = (((f a).run (tr ++ e1)).1, e1 ++ ((f a).run (tr ++ e1)).2) := by
  simp only [Flow.bind, h]

/-- Sequencing after a computation whose run is known to panic. -/
theorem Flow.bind_panicked {α β : Type} (x : Flow α) (f : α → Flow β) (tr : List Event)
    (m : String) (e1 : List Event) (h : x.run tr = (Outcome.panicked m, e1)) :
    (Flow.bind x f).run tr = (Outcome.panicked m, e1) := by
  simp only [Flow.bind, h]

/-- Sequencing after a computation whose run is known to lack fuel. -/
theorem Flow.bind_outOfFuel {α β : Type} (x : Flow α) (f : α → Flow β) (tr : List Event)
    (e1 : List Event) (h : x.run tr = (Outcome.outOfFuel, e1)) :
    (Flow.bind x f).run tr = (Outcome.outOfFuel, e1) := by
  simp only [Flow.bind, h]

theorem bigIntCmp_pos (x y : Int) : bigIntCmp x y > 0 ↔ x > y := by
  unfold bigIntCmp
  split_ifs <;> omega

/-- Sequencing with a continuation that performs no call adds no event. -/
theorem Flow.bind_events_of_silent {α β : Type} (x : Flow α) (f : α → Flow β)
    (tr : List Event) (hf : ∀ a tr2, ((f a).run tr2).2 = []) :
    ((Flow.bind x f).run tr).2 = (x.run tr).2 := by
  rcases hx : x.run tr with ⟨o, e1⟩
  cases o with
  | returned a => rw [Flow.bind_returned x f tr a e1 hx]; simp [hf]
  | panicked m => rw [Flow.bind_panicked x f tr m e1 hx]
  | outOfFuel => rw [Flow.bind_outOfFuel x f tr e1 hx]

/-! ## Which events a flow can perform -/

/-- Every event the computation performs, from whatever history, satisfies `P`. -/
structure Flow.emitsOnly {α : Type} (P : Event → Prop) (x : Flow α) : Prop where
  events : ∀ tr : List Event, ∀ ev ∈ (x.run tr).2, P ev

theorem Flow.emitsOnly_pure {α : Type} (P : Event → Prop) (a : α) :
    Flow.emitsOnly P (Pure.pure a : Flow α) := by
  constructor
  intro tr ev hev
  simp at hev

theorem Flow.emitsOnly_panic {α : Type} (P : Event → Prop) (msg : String) :
    Flow.emitsOnly P (Flow.panic msg : Flow α) := by
  constructor
  intro tr ev hev
  simp at hev

theorem Flow.emitsOnly_outOfFuel {α : Type} (P : Event → Prop) :
    Flow.emitsOnly P (Flow.outOfFuel : Flow α) := by
  constructor
  intro tr ev hev
  simp at hev

theorem Flow.emitsOnly_call {ρ : Type} (P : Event → Prop) (ev : Event)
    (answer : List Event → ρ) (h : P ev) : Flow.emitsOnly P (Flow.call ev answer) := by
  constructor
  intro tr ev2 hev
  simp at hev
  exact hev ▸ h

theorem Flow.emitsOnly_bind {α β : Type} (P : Event → Prop) (x : Flow α) (f : α → Flow β)
    (hx : Flow.emitsOnly P x) (hf : ∀ a, Flow.emitsOnly P (f a)) :
    Flow.emitsOnly P (x >>= f) := by
  constructor
  intro tr ev hev
  rw [Flow.run_bind] at hev
  have h1 := hx.events tr
  rcases hxt : x.run tr with ⟨r, e1⟩
  rw [hxt] at h1
  cases r with
  | returned a =>
    rw [Flow.bind_returned x f tr a e1 hxt] at hev
    simp only [List.mem_append] at hev
    rcases hev with h | h
    · exact h1 ev h
    · exact (hf a).events (tr ++ e1) ev h
  | panicked m =>
    rw [Flow.bind_panicked x f tr m e1 hxt] at hev
    exact h1 ev hev
  | outOfFuel =>
    rw [Flow.bind_outOfFuel x f tr e1 hxt] at hev
    exact h1 ev hev

theorem Flow.emitsOnly_withDefer {α : Type} (P : Event → Prop) (body : Flow α)
    (deferred : Flow Unit) (hb : Flow.emitsOnly P body) (hd : Flow.emitsOnly P deferred) :
    Flow.emitsOnly P (Flow.withDefer body deferred) := by
  constructor
  intro tr ev hev
  unfold Flow.withDefer at hev
  have h1 := hb.events tr
  rcases hbt : body.run tr with ⟨r, e1⟩
  simp only [hbt] at hev h1
  have h2 := hd.events (tr ++ e1)
  rcases hdt : deferred.run (tr ++ e1) with ⟨r2, e2⟩
  rw [hdt] at h2
  cases r <;> cases r2 <;> simp only [hdt, List.mem_append] at hev <;>
    first
    | exact h1 ev hev
    | (rcases hev with h | h
       · exact h1 ev h
       · exact h2 ev h)

theorem Flow.emitsOnly_mono {α : Type} (P Q : Event → Prop) (x : Flow α)
    (hPQ : ∀ ev, P ev → Q ev) (hx : Flow.emitsOnly P x) : Flow.emitsOnly Q x :=
  ⟨fun tr ev hev => hPQ ev (hx.events tr ev hev)⟩

/-- What syncAndValidatePruningPointProof can call. -/
def proofPhaseEvent : Event → Bool
  | Event.Enqueue OutMsg.RequestPruningPointProof => true
  | Event.Dequeue => true
  | Event.ValidatePruningPointProof _ => true
  | Event.StagingApplyPruningPointProof _ => true
  | _ => false

/-- What validateAndInsertPruningPoints can call. -/
def pruningPointsEvent : Event → Bool
  | Event.PruningPoint => true
  | Event.Dequeue => true
  | Event.ArePruningPointsViolatingFinality _ => true
  | Event.StagingImportPruningPoints _ => true
  | _ => false

/-- What the trusted-data stream of syncPruningPointsAndPruningPointAnticone can call. -/
def trustedDataEvent : Event → Bool
  | Event.Dequeue => true
  | Event.StagingValidateAndInsertBlockWithTrustedData _ false => true
  | _ => false

/-- What syncPruningPointsAndPruningPointAnticone can call. -/
def anticonePhaseEvent : Event → Bool
  | Event.Enqueue OutMsg.RequestPruningPointAndItsAnticone => true
  | ev => pruningPointsEvent ev || trustedDataEvent ev

/-- What the body of fetchMissingUTXOSet can call. -/
def fetchBodyEvent : Event → Bool
  | Event.Enqueue (OutMsg.RequestPruningPointUTXOSet _) => true
  | Event.receiveAndInsertPruningPointUTXOSet _ _ => true
  | Event.StagingValidateAndInsertImportedPruningPoint _ => true
  | Event.OnPruningPointUTXOSetOverride => true
  | _ => false

/-- What syncPruningPointUTXOSet can call. -/
def utxoPhaseEvent : Event → Bool
  | Event.StagingIsValidPruningPoint _ => true
  | Event.Enqueue (OutMsg.RequestPruningPointUTXOSet _) => true
  | Event.receiveAndInsertPruningPointUTXOSet _ _ => true
  | Event.StagingValidateAndInsertImportedPruningPoint _ => true
  | Event.OnPruningPointUTXOSetOverride => true
  | Event.StagingClearImportedPruningPointData => true
  | _ => false

/-- What downloadHeadersAndPruningUTXOSet can call before it starts the UTXO-set sync. -/
def headersPhaseEvent : Event → Bool
  | Event.syncPruningPointFutureHeaders _ _ _ => true
  | Event.StagingGetBlockInfo _ => true
  | Event.validatePruningPointFutureHeaderTimestamps => true
  | ev => proofPhaseEvent ev || anticonePhaseEvent ev

/-- What downloadHeadersAndPruningUTXOSet can call. -/
def downloadEvent (ev : Event) : Bool := headersPhaseEvent ev || utxoPhaseEvent ev

theorem syncAndValidatePruningPointProof_emitsOnly (w : World) :
    Flow.emitsOnly (fun ev => proofPhaseEvent ev = true)
      (syncAndValidatePruningPointProof w) := by
  unfold syncAndValidatePruningPointProof
  repeat (first
    | exact Flow.emitsOnly_pure _ _
    | exact Flow.emitsOnly_panic _ _
    | exact Flow.emitsOnly_call _ _ _ rfl
    | apply Flow.emitsOnly_bind
    | intro _
    | split)

theorem receivePruningPoints_emitsOnly (w : World) :
    Flow.emitsOnly (fun ev => pruningPointsEvent ev = true) (receivePruningPoints w) := by
  unfold receivePruningPoints
  repeat (first
    | exact Flow.emitsOnly_pure _ _
    | exact Flow.emitsOnly_call _ _ _ rfl
    | apply Flow.emitsOnly_bind
    | intro _
    | split)

theorem validateAndInsertPruningPoints_emitsOnly (w : World) (proofPruningPoint : DomainHash) :
    Flow.emitsOnly (fun ev => pruningPointsEvent ev = true)
      (validateAndInsertPruningPoints w proofPruningPoint) := by
  unfold validateAndInsertPruningPoints
  repeat (first
    | exact Flow.emitsOnly_pure _ _
    | exact Flow.emitsOnly_panic _ _
    | exact Flow.emitsOnly_call _ _ _ rfl
    | exact receivePruningPoints_emitsOnly w
    | apply Flow.emitsOnly_bind
    | intro _
    | split
    | dsimp only)

theorem receiveBlockWithTrustedData_emitsOnly (w : World) :
    Flow.emitsOnly (fun ev => trustedDataEvent ev = true) (receiveBlockWithTrustedData w) := by
  unfold receiveBlockWithTrustedData
  repeat (first
    | exact Flow.emitsOnly_pure _ _
    | exact Flow.emitsOnly_call _ _ _ rfl
    | apply Flow.emitsOnly_bind
    | intro _
    | split)

theorem processBlockWithTrustedData_emitsOnly (w : World) (block : MsgBlockWithTrustedData) :
    Flow.emitsOnly (fun ev => trustedDataEvent ev = true)
      (processBlockWithTrustedData w block) :=
  Flow.emitsOnly_call _ _ _ rfl

theorem anticoneLoop_emitsOnly (w : World) (fuel : Nat) :
    Flow.emitsOnly (fun ev => trustedDataEvent ev = true) (anticoneLoop w fuel) := by
  induction fuel with
  | zero => exact Flow.emitsOnly_outOfFuel _
  | succ n ih =>
    unfold anticoneLoop
    repeat (first
      | exact ih
      | exact Flow.emitsOnly_pure _ _
      | exact Flow.emitsOnly_panic _ _
      | exact receiveBlockWithTrustedData_emitsOnly w
      | exact processBlockWithTrustedData_emitsOnly w _
      | apply Flow.emitsOnly_bind
      | intro _
      | split)

theorem pruningPointsEvent_anticone (ev : Event) (h : pruningPointsEvent ev = true) :
    anticonePhaseEvent ev = true := by
  cases ev <;> simp_all [anticonePhaseEvent, pruningPointsEvent]

theorem trustedDataEvent_anticone (ev : Event) (h : trustedDataEvent ev = true) :
    anticonePhaseEvent ev = true := by
  cases ev <;> simp_all [anticonePhaseEvent, trustedDataEvent]

theorem syncPruningPointsAndPruningPointAnticone_emitsOnly (w : World) (fuel : Nat)
    (proofPruningPoint : DomainHash) :
    Flow.emitsOnly (fun ev => anticonePhaseEvent ev = true)
      (syncPruningPointsAndPruningPointAnticone w fuel proofPruningPoint) := by
  have h1 := Flow.emitsOnly_mono _ _ _ pruningPointsEvent_anticone
    (validateAndInsertPruningPoints_emitsOnly w proofPruningPoint)
  have h2 := Flow.emitsOnly_mono _ _ _ trustedDataEvent_anticone
    (receiveBlockWithTrustedData_emitsOnly w)
  have h3 := fun b => Flow.emitsOnly_mono _ _ _ trustedDataEvent_anticone
    (processBlockWithTrustedData_emitsOnly w b)
  have h4 := Flow.emitsOnly_mono _ _ _ trustedDataEvent_anticone
    (anticoneLoop_emitsOnly w fuel)
  unfold syncPruningPointsAndPruningPointAnticone
  repeat (first
    | exact h1
    | exact h2
    | exact h3 _
    | exact h4
    | exact Flow.emitsOnly_pure _ _
    | exact Flow.emitsOnly_panic _ _
    | exact Flow.emitsOnly_call _ _ _ rfl
    | apply Flow.emitsOnly_bind
    | intro _
    | split)

theorem fetchMissingUTXOSetBody_emitsOnly (w : World) (consensus : ConsensusRef)
    (pruningPointHash : DomainHash) :
    Flow.emitsOnly (fun ev => fetchBodyEvent ev = true)
      (fetchMissingUTXOSetBody w consensus pruningPointHash) := by
  unfold fetchMissingUTXOSetBody
  repeat (first
    | exact Flow.emitsOnly_pure _ _
    | exact Flow.emitsOnly_call _ _ _ rfl
    | apply Flow.emitsOnly_bind
    | intro _
    | split)

/-- The body of fetchMissingUTXOSet always returns: it neither panics nor loops. -/
theorem fetchMissingUTXOSetBody_isReturned (w : World) (consensus : ConsensusRef)
    (pruningPointHash : DomainHash) (tr : List Event) :
    ((fetchMissingUTXOSetBody w consensus pruningPointHash).run tr).1.isReturned = true := by
  unfold fetchMissingUTXOSetBody
  repeat (first
    | rfl
    | split
    | simp only [Flow.run_bind, Flow.bind_call, Flow.run_pure, Flow.run_ite])

theorem Outcome.isReturned_iff {α : Type} (o : Outcome α) :
    o.isReturned = true ↔ ∃ a, o = Outcome.returned a := by
  cases o <;> simp [Outcome.isReturned]

/-- The run of the deferred function of fetchMissingUTXOSet. -/
theorem fetchMissingUTXOSetDeferred_run (w : World) (tr : List Event) :
    (fetchMissingUTXOSetDeferred w).run tr =
      (match w.StagingClearImportedPruningPointData tr with
        | some _ => Outcome.panicked "failed to clear imported pruning point data: %s"
        | none => Outcome.returned (),
       [Event.StagingClearImportedPruningPointData]) := by
  unfold fetchMissingUTXOSetDeferred
  simp only [Flow.run_bind, Flow.bind_call]
  rcases h : w.StagingClearImportedPruningPointData tr with _ | e <;> rfl

/-- The run of fetchMissingUTXOSet: the body, then the deferred call, whose failure turns
the outcome into a panic. -/
theorem fetchMissingUTXOSet_run (w : World) (consensus : ConsensusRef)
    (pruningPointHash : DomainHash) (tr : List Event) :
    (fetchMissingUTXOSet w consensus pruningPointHash).run tr =
      (match w.StagingClearImportedPruningPointData
          (tr ++ ((fetchMissingUTXOSetBody w consensus pruningPointHash).run tr).2) with
        | some _ => Outcome.panicked "failed to clear imported pruning point data: %s"
        | none => ((fetchMissingUTXOSetBody w consensus pruningPointHash).run tr).1,
       ((fetchMissingUTXOSetBody w consensus pruningPointHash).run tr).2 ++
        [Event.StagingClearImportedPruningPointData]) := by
  obtain ⟨r, hr⟩ := (Outcome.isReturned_iff _).1
    (fetchMissingUTXOSetBody_isReturned w consensus pruningPointHash tr)
  unfold fetchMissingUTXOSet Flow.withDefer
  simp only [fetchMissingUTXOSetDeferred_run]
  rcases hb : (fetchMissingUTXOSetBody w consensus pruningPointHash).run tr with ⟨o, e1⟩
  rw [hb] at hr
  simp only at hr
  subst hr
  rcases hc : w.StagingClearImportedPruningPointData (tr ++ e1) with _ | e <;> simp [hc]

theorem fetchBodyEvent_utxo (ev : Event) (h : fetchBodyEvent ev = true) :
    utxoPhaseEvent ev = true := by
  cases ev with
  | Enqueue m => cases m <;> simp_all [fetchBodyEvent, utxoPhaseEvent]
  | _ => simp_all [fetchBodyEvent, utxoPhaseEvent]

theorem fetchMissingUTXOSetDeferred_emitsOnly (w : World) :
    Flow.emitsOnly (fun ev => utxoPhaseEvent ev = true) (fetchMissingUTXOSetDeferred w) := by
  unfold fetchMissingUTXOSetDeferred
  repeat (first
    | exact Flow.emitsOnly_pure _ _
    | exact Flow.emitsOnly_panic _ _
    | exact Flow.emitsOnly_call _ _ _ rfl
    | apply Flow.emitsOnly_bind
    | intro _
    | split)

theorem fetchMissingUTXOSet_emitsOnly (w : World) (consensus : ConsensusRef)
    (pruningPointHash : DomainHash) :
    Flow.emitsOnly (fun ev => utxoPhaseEvent ev = true)
      (fetchMissingUTXOSet w consensus pruningPointHash) :=
  Flow.emitsOnly_withDefer _ _ _
    (Flow.emitsOnly_mono _ _ _ fetchBodyEvent_utxo
      (fetchMissingUTXOSetBody_emitsOnly w consensus pruningPointHash))
    (fetchMissingUTXOSetDeferred_emitsOnly w)

theorem syncPruningPointUTXOSet_emitsOnly (w : World) (consensus : ConsensusRef)
    (pruningPoint : DomainHash) :
    Flow.emitsOnly (fun ev => utxoPhaseEvent ev = true)
      (syncPruningPointUTXOSet w consensus pruningPoint) := by
  unfold syncPruningPointUTXOSet
  repeat (first
    | exact Flow.emitsOnly_pure _ _
    | exact Flow.emitsOnly_call _ _ _ rfl
    | exact fetchMissingUTXOSet_emitsOnly w _ _
    | apply Flow.emitsOnly_bind
    | intro _
    | split)

theorem proofPhaseEvent_download (ev : Event) (h : proofPhaseEvent ev = true) :
    downloadEvent ev = true := by
  cases ev <;> simp_all [downloadEvent, headersPhaseEvent, proofPhaseEvent]

theorem anticonePhaseEvent_download (ev : Event) (h : anticonePhaseEvent ev = true) :
    downloadEvent ev = true := by
  cases ev <;> simp_all [downloadEvent, headersPhaseEvent, proofPhaseEvent]

theorem utxoPhaseEvent_download (ev : Event) (h : utxoPhaseEvent ev = true) :
    downloadEvent ev = true := by
  simp [downloadEvent, h]

theorem downloadHeadersAndPruningUTXOSet_emitsOnly (w : World) (fuel : Nat)
    (highHash : DomainHash) :
    Flow.emitsOnly (fun ev => downloadEvent ev = true)
      (downloadHeadersAndPruningUTXOSet w fuel highHash) := by
  have h1 := Flow.emitsOnly_mono _ _ _ proofPhaseEvent_download
    (syncAndValidatePruningPointProof_emitsOnly w)
  have h2 := fun p => Flow.emitsOnly_mono _ _ _ anticonePhaseEvent_download
    (syncPruningPointsAndPruningPointAnticone_emitsOnly w fuel p)
  have h3 := fun p => Flow.emitsOnly_mono _ _ _ utxoPhaseEvent_download
    (syncPruningPointUTXOSet_emitsOnly w ConsensusRef.staging p)
  unfold downloadHeadersAndPruningUTXOSet
  repeat (first
    | exact h1
    | exact h2 _
    | exact h3 _
    | exact Flow.emitsOnly_pure _ _
    | exact Flow.emitsOnly_call _ _ _ rfl
    | apply Flow.emitsOnly_bind
    | intro _
    | split)

/-- The download never touches the life cycle of the staging consensus. -/
theorem downloadHeadersAndPruningUTXOSet_lifecycle (w : World) (fuel : Nat)
    (highHash : DomainHash) (tr : List Event) :
    Event.InitStagingConsensus ∉ ((downloadHeadersAndPruningUTXOSet w fuel highHash).run tr).2 ∧
    Event.DeleteStagingConsensus ∉
      ((downloadHeadersAndPruningUTXOSet w fuel highHash).run tr).2 ∧
    Event.CommitStagingConsensus ∉
      ((downloadHeadersAndPruningUTXOSet w fuel highHash).run tr).2 := by
  have h := (downloadHeadersAndPruningUTXOSet_emitsOnly w fuel highHash).events tr
  refine ⟨fun hm => ?_, fun hm => ?_, fun hm => ?_⟩ <;>
    exact absurd (h _ hm) (by decide)

theorem proofPhaseEvent_headers (ev : Event) (h : proofPhaseEvent ev = true) :
    headersPhaseEvent ev = true := by
  cases ev <;> simp_all [headersPhaseEvent, proofPhaseEvent]

theorem anticonePhaseEvent_headers (ev : Event) (h : anticonePhaseEvent ev = true) :
    headersPhaseEvent ev = true := by
  cases ev <;> simp_all [headersPhaseEvent, proofPhaseEvent]

/-- The run of syncPruningPointUTXOSet, in terms of the run of fetchMissingUTXOSet. -/
theorem syncPruningPointUTXOSet_run (w : World) (consensus : ConsensusRef)
    (pruningPoint : DomainHash) (tr : List Event) :
    (syncPruningPointUTXOSet w consensus pruningPoint).run tr =
      match w.StagingIsValidPruningPoint tr pruningPoint with
      | Except.error err =>
        (Outcome.returned (false, some err), [Event.StagingIsValidPruningPoint pruningPoint])
      | Except.ok false =>
        (Outcome.returned (false, some (protocolerrors.Errorf true "invalid pruning point %s")),
          [Event.StagingIsValidPruningPoint pruningPoint])
      | Except.ok true =>
        (match ((fetchMissingUTXOSet w consensus pruningPoint).run
            (tr ++ [Event.StagingIsValidPruningPoint pruningPoint])).1 with
          | Outcome.returned (_, some err) => Outcome.returned (false, some err)
          | Outcome.returned (isSuccessful, none) => Outcome.returned (isSuccessful, none)
          | Outcome.panicked m => Outcome.panicked m
          | Outcome.outOfFuel => Outcome.outOfFuel,
         Event.StagingIsValidPruningPoint pruningPoint ::
          ((fetchMissingUTXOSet w consensus pruningPoint).run
            (tr ++ [Event.StagingIsValidPruningPoint pruningPoint])).2) := by
  unfold syncPruningPointUTXOSet
  simp only [Flow.run_bind, Flow.bind_call]
  rcases hv : w.StagingIsValidPruningPoint tr pruningPoint with err | isValid
  · simp
  · cases isValid
    · simp
    · simp only [Bool.not_true, Bool.false_eq_true, if_false, Flow.run_bind]
      rcases hf : (fetchMissingUTXOSet w consensus pruningPoint).run
        (tr ++ [Event.StagingIsValidPruningPoint pruningPoint]) with ⟨o, e1⟩
      cases o with
      | returned r =>
        rw [Flow.bind_returned _ _ _ _ _ hf]
        rcases r with ⟨b, _ | err⟩
        · cases b <;> simp
        · simp
      | panicked m => rw [Flow.bind_panicked _ _ _ _ _ hf]
      | outOfFuel => rw [Flow.bind_outOfFuel _ _ _ _ hf]

/-- The calls of a download: either it ends before the UTXO-set sync, having performed
only calls of the earlier phases, or staging reported the triggering block as existing,
the timestamps were validated and the rest of the calls is the run of
syncPruningPointUTXOSet. -/
theorem downloadHeadersAndPruningUTXOSet_cases (w : World) (fuel : Nat)
    (highHash : DomainHash) (tr : List Event) :
    (∀ ev ∈ ((downloadHeadersAndPruningUTXOSet w fuel highHash).run tr).2,
      headersPhaseEvent ev = true) ∨
    ∃ pre p info, (∀ ev ∈ pre, headersPhaseEvent ev = true) ∧
      w.StagingGetBlockInfo (tr ++ pre) highHash = Except.ok info ∧ info.Exists = true ∧
      ((downloadHeadersAndPruningUTXOSet w fuel highHash).run tr).2 =
        pre ++ Event.StagingGetBlockInfo highHash ::
          Event.validatePruningPointFutureHeaderTimestamps ::
          ((syncPruningPointUTXOSet w ConsensusRef.staging p).run
            (tr ++ pre ++ [Event.StagingGetBlockInfo highHash,
              Event.validatePruningPointFutureHeaderTimestamps])).2 := by
  unfold downloadHeadersAndPruningUTXOSet
  have hA := (syncAndValidatePruningPointProof_emitsOnly w).events tr
  rcases h1 : (syncAndValidatePruningPointProof w).run tr with ⟨o1, e1⟩
  rw [h1] at hA
  have hA2 : ∀ ev ∈ e1, headersPhaseEvent ev = true :=
    fun ev hev => proofPhaseEvent_headers ev (hA ev hev)
  rw [Flow.run_bind]
  cases o1 with
  | panicked m => left; rw [Flow.bind_panicked _ _ _ _ _ h1]; exact hA2
  | outOfFuel => left; rw [Flow.bind_outOfFuel _ _ _ _ h1]; exact hA2
  | returned r1 =>
    rw [Flow.bind_returned _ _ _ _ _ h1]
    cases r1 with
    | error e => left; simpa using hA2
    | ok p =>
      have hB := (syncPruningPointsAndPruningPointAnticone_emitsOnly w fuel p).events
        (tr ++ e1)
      rcases h2 : (syncPruningPointsAndPruningPointAnticone w fuel p).run (tr ++ e1)
        with ⟨o2, e2⟩
      rw [h2] at hB
      have hB2 : ∀ ev ∈ e1 ++ e2, headersPhaseEvent ev = true := by
        intro ev hev
        rcases List.mem_append.1 hev with h | h
        · exact hA2 ev h
        · exact anticonePhaseEvent_headers ev (hB ev h)
      simp only [Flow.run_bind]
      cases o2 with
      | panicked m => left; rw [Flow.bind_panicked _ _ _ _ _ h2]; exact hB2
      | outOfFuel => left; rw [Flow.bind_outOfFuel _ _ _ _ h2]; exact hB2
      | returned r2 =>
        rw [Flow.bind_returned _ _ _ _ _ h2]
        cases r2 with
        | some e => left; simpa using hB2
        | none =>
          by_cases hg : p = w.GenesisHash
          · left; simpa [hg] using hB2
          · simp only [hg, if_false, Flow.run_bind, Flow.bind_call]
            rcases hfh : w.syncPruningPointFutureHeaders (tr ++ e1 ++ e2)
              ConsensusRef.staging p highHash with _ | e
            · simp only [Flow.run_bind, Flow.bind_call]
              rcases hgbi : w.StagingGetBlockInfo
                (tr ++ e1 ++ e2 ++
                  [Event.syncPruningPointFutureHeaders ConsensusRef.staging p highHash])
                highHash with e | info
              · left
                intro ev hev
                simp at hev
                rcases hev with h | h | h | h
                · exact hA2 ev h
                · exact hB2 ev (List.mem_append.2 (Or.inr h))
                · subst h; rfl
                · subst h; rfl
              · by_cases hex : info.Exists = true
                · simp only [hex, Bool.not_true, Bool.false_eq_true, if_false,
                    Flow.run_bind, Flow.bind_call]
                  rcases hts : w.validatePruningPointFutureHeaderTimestamps
                    (tr ++ e1 ++ e2 ++
                      [Event.syncPruningPointFutureHeaders ConsensusRef.staging p highHash] ++
                      [Event.StagingGetBlockInfo highHash]) with _ | e
                  · right
                    refine ⟨e1 ++ e2 ++
                      [Event.syncPruningPointFutureHeaders ConsensusRef.staging p highHash],
                      p, info, ?_, ?_, hex, ?_⟩
                    · intro ev hev
                      simp at hev
                      rcases hev with h | h | h
                      · exact hA2 ev h
                      · exact hB2 ev (List.mem_append.2 (Or.inr h))
                      · subst h; rfl
                    · simpa using hgbi
                    · simp only [Flow.run_bind]
                      rw [Flow.bind_events_of_silent]
                      · simp
                      · rintro ⟨b, _ | err⟩ tr2
                        · cases b <;> rfl
                        · rfl
                  · left
                    intro ev hev
                    simp at hev
                    rcases hev with h | h | h | h | h
                    · exact hA2 ev h
                    · exact hB2 ev (List.mem_append.2 (Or.inr h))
                    · subst h; rfl
                    · subst h; rfl
                    · subst h; rfl
                · left
                  intro ev hev
                  simp [hex] at hev
                  rcases hev with h | h | h | h
                  · exact hA2 ev h
                  · exact hB2 ev (List.mem_append.2 (Or.inr h))
                  · subst h; rfl
                  · subst h; rfl
            · left
              intro ev hev
              simp at hev
              rcases hev with h | h | h
              · exact hA2 ev h
              · exact hB2 ev (List.mem_append.2 (Or.inr h))
              · subst h; rfl

/-! ## C1: the gate -/

/-- The run of the blue-work and blue-score check when both consensus queries succeed. -/
theorem checkIfHighHash_run (w : World) (highBlock : DomainBlock) (tr : List Event)
    (tip : DomainHash) (info : BlockInfo)
    (hTip : w.GetHeadersSelectedTip tr = Except.ok tip)
    (hInfo : w.GetBlockInfo (tr ++ [Event.GetHeadersSelectedTip]) tip = Except.ok info) :
    (checkIfHighHashHasMoreBlueWorkThanSelectedTipAndPruningDepthMoreBlueScore w
        highBlock).run tr =
      (Outcome.returned
        (decide (highBlock.Header.blueWork > info.BlueWork ∧
          highBlock.Header.blueScore ≥ (info.BlueScore + w.PruningDepth) % 2 ^ 64), none),
       [Event.GetHeadersSelectedTip, Event.GetBlockInfo tip]) := by
  unfold checkIfHighHashHasMoreBlueWorkThanSelectedTipAndPruningDepthMoreBlueScore
  simp only [Flow.run_bind, Flow.bind_call, hTip, hInfo]
  simp only [Flow.run_ite, Flow.run_pure, gt_iff_lt, ge_iff_le]
  have hc := bigIntCmp_pos highBlock.Header.blueWork info.BlueWork
  split_ifs with h
  · have h2 : ¬ (info.BlueScore + w.PruningDepth) % 2 ^ 64 ≤ highBlock.Header.blueScore := by
      omega
    simp only [h2, and_false, decide_False]
  · have h2 : (info.BlueScore + w.PruningDepth) % 2 ^ 64 ≤ highBlock.Header.blueScore := by
      omega
    simp only [h2, and_true]
    by_cases h3 : info.BlueWork < highBlock.Header.blueWork
    · simp [h3, hc.2 h3]
    · have h4 : ¬ (0 < bigIntCmp highBlock.Header.blueWork info.BlueWork) :=
        fun h5 => h3 (hc.1 h5)
      simp [h3, h4]

/-- C1, as the code has it: with highestSharedBlockFound false and both consensus queries
successful, the gate returns (true, true, nil) exactly when highBlock has more blue work
than the local tip and its blue score is at least the 64-bit wrapped sum of the tip's blue
score and the pruning depth, and it returns (false, false, nil) otherwise; the two
queries are the only calls. -/
theorem shouldSyncAndShouldDownloadHeadersProof_gate (w : World) (highBlock : DomainBlock)
    (tr : List Event) (tip : DomainHash) (info : BlockInfo)
    (hTip : w.GetHeadersSelectedTip tr = Except.ok tip)
    (hInfo : w.GetBlockInfo (tr ++ [Event.GetHeadersSelectedTip]) tip = Except.ok info) :
    (((shouldSyncAndShouldDownloadHeadersProof w highBlock false).run tr).1 =
        Outcome.returned (true, true, none) ↔
      (highBlock.Header.blueWork > info.BlueWork ∧
        highBlock.Header.blueScore ≥ (info.BlueScore + w.PruningDepth) % 2 ^ 64)) ∧
    (¬ (highBlock.Header.blueWork > info.BlueWork ∧
        highBlock.Header.blueScore ≥ (info.BlueScore + w.PruningDepth) % 2 ^ 64) →
      ((shouldSyncAndShouldDownloadHeadersProof w highBlock false).run tr).1 =
        Outcome.returned (false, false, none)) ∧
    ((shouldSyncAndShouldDownloadHeadersProof w highBlock false).run tr).2 =
      [Event.GetHeadersSelectedTip, Event.GetBlockInfo tip] := by
  have hrun := checkIfHighHash_run w highBlock tr tip info hTip hInfo
  unfold shouldSyncAndShouldDownloadHeadersProof
  simp only [Bool.not_false, if_true, Flow.run_bind, Flow.bind, hrun]
  by_cases h : highBlock.Header.blueWork > info.BlueWork ∧
      highBlock.Header.blueScore ≥ (info.BlueScore + w.PruningDepth) % 2 ^ 64
  · simp only [h, decide_True, if_true, Flow.run_pure, List.append_nil, not_true_eq_false]
    simp
  · simp only [h, decide_False, Flow.run_pure, List.append_nil, not_false_eq_true]
    simp

/-- Witness of C1: a tip of blue score 100 and blue work 10, pruning depth 50, and a
block of blue score 150 and blue work 11. -/
theorem shouldSyncAndShouldDownloadHeadersProof_gate_witness :
    (scriptedWorld []).GetHeadersSelectedTip [] = Except.ok 1 ∧
    (scriptedWorld []).GetBlockInfo ([] ++ [Event.GetHeadersSelectedTip]) 1 =
      Except.ok ⟨true, 100, 10⟩ ∧
    ((((shouldSyncAndShouldDownloadHeadersProof (scriptedWorld []) ⟨⟨150, 11, 0⟩⟩ false).run []).1 =
        Outcome.returned (true, true, none) ↔
      ((11 : Int) > 10 ∧ 150 ≥ (100 + 50) % 2 ^ 64)) ∧
    (¬ ((11 : Int) > 10 ∧ 150 ≥ (100 + 50) % 2 ^ 64) →
      ((shouldSyncAndShouldDownloadHeadersProof (scriptedWorld []) ⟨⟨150, 11, 0⟩⟩ false).run []).1 =
        Outcome.returned (false, false, none)) ∧
    ((shouldSyncAndShouldDownloadHeadersProof (scriptedWorld []) ⟨⟨150, 11, 0⟩⟩ false).run []).2 =
      [Event.GetHeadersSelectedTip, Event.GetBlockInfo 1]) :=
  ⟨rfl, rfl, shouldSyncAndShouldDownloadHeadersProof_gate (scriptedWorld []) ⟨⟨150, 11, 0⟩⟩ [] 1
    ⟨true, 100, 10⟩ rfl rfl⟩

/-- C1 as stated fails: the tip has blue score 2^64 - 50 and the pruning depth is 50, so
the sum wraps to 0; both queries succeed and the gate returns (true, true, nil) for a
block of blue score 3, although 3 is less than the sum of the two numbers. -/
theorem shouldSyncAndShouldDownloadHeadersProof_gate_overflow :
    overflowWorld.GetHeadersSelectedTip [] = Except.ok 1 ∧
    overflowWorld.GetBlockInfo [Event.GetHeadersSelectedTip] 1 =
      Except.ok ⟨true, 18446744073709551566, 10⟩ ∧
    overflowWorld.PruningDepth = 50 ∧
    (18446744073709551566 : Nat) < 2 ^ 64 ∧
    ((shouldSyncAndShouldDownloadHeadersProof overflowWorld lowScoreBlock false).run []).1 =
      Outcome.returned (true, true, none) ∧
    ¬ (lowScoreBlock.Header.blueWork > 10 ∧
      lowScoreBlock.Header.blueScore ≥ 18446744073709551566 + 50) := by
  refine ⟨rfl, rfl, rfl, by norm_num, rfl, by simp [lowScoreBlock]⟩

/-! ## C3 and C4: a failed download -/

/-- The run of ibdWithHeadersProof after a successful init and a download that returned
the error `e`. -/
theorem ibdWithHeadersProof_run_failed (w : World) (fuel : Nat) (highHash : DomainHash)
    (tr : List Event) (e : Err) (e1 : List Event)
    (hInit : w.InitStagingConsensus tr = none)
    (hDownload : (downloadHeadersAndPruningUTXOSet w fuel highHash).run
      (tr ++ [Event.InitStagingConsensus]) = (Outcome.returned (some e), e1)) :
    (ibdWithHeadersProof w fuel highHash).run tr =
      if w.IsRecoverableError e = true then
        (Outcome.returned
          (match w.DeleteStagingConsensus (tr ++ Event.InitStagingConsensus :: e1) with
            | some d => some d
            | none => some e),
         Event.InitStagingConsensus :: (e1 ++ [Event.DeleteStagingConsensus]))
      else
        (Outcome.returned (some e), Event.InitStagingConsensus :: e1) := by
  unfold ibdWithHeadersProof
  simp only [Flow.run_bind, Flow.bind_call, hInit,
    Flow.bind_returned _ _ _ _ _ hDownload]
  cases hr : w.IsRecoverableError e
  · simp
  · rcases hd : w.DeleteStagingConsensus (tr ++ Event.InitStagingConsensus :: e1)
      with _ | d <;> simp [hd]

/-- C3, as the code has it: when the download returns an error e that is recoverable,
ibdWithHeadersProof calls DeleteStagingConsensus exactly once, as its last call, never
calls CommitStagingConsensus, and returns e if DeleteStagingConsensus succeeded and the
error of DeleteStagingConsensus otherwise. -/
theorem ibdWithHeadersProof_recoverable (w : World) (fuel : Nat) (highHash : DomainHash)
    (tr : List Event) (e : Err) (e1 : List Event)
    (hInit : w.InitStagingConsensus tr = none)
    (hDownload : (downloadHeadersAndPruningUTXOSet w fuel highHash).run
      (tr ++ [Event.InitStagingConsensus]) = (Outcome.returned (some e), e1))
    (hRecoverable : w.IsRecoverableError e = true) :
    ((ibdWithHeadersProof w fuel highHash).run tr).1 =
      Outcome.returned
        (match w.DeleteStagingConsensus (tr ++ Event.InitStagingConsensus :: e1) with
          | some d => some d
          | none => some e) ∧
    ((ibdWithHeadersProof w fuel highHash).run tr).2 =
      Event.InitStagingConsensus :: (e1 ++ [Event.DeleteStagingConsensus]) ∧
    ((ibdWithHeadersProof w fuel highHash).run tr).2.count Event.DeleteStagingConsensus = 1 ∧
    Event.CommitStagingConsensus ∉ ((ibdWithHeadersProof w fuel highHash).run tr).2 := by
  have hl := downloadHeadersAndPruningUTXOSet_lifecycle w fuel highHash
    (tr ++ [Event.InitStagingConsensus])
  rw [hDownload] at hl
  rw [ibdWithHeadersProof_run_failed w fuel highHash tr e e1 hInit hDownload,
    if_pos hRecoverable]
  refine ⟨rfl, rfl, ?_, ?_⟩
  · simp [List.count_cons, List.count_eq_zero_of_not_mem hl.2.1]
  · simp [hl.2.2]

/-- C4: when the download returns an error e that is not recoverable,
ibdWithHeadersProof returns e unchanged and calls neither DeleteStagingConsensus nor
CommitStagingConsensus. -/
theorem ibdWithHeadersProof_nonRecoverable (w : World) (fuel : Nat) (highHash : DomainHash)
    (tr : List Event) (e : Err) (e1 : List Event)
    (hInit : w.InitStagingConsensus tr = none)
    (hDownload : (downloadHeadersAndPruningUTXOSet w fuel highHash).run
      (tr ++ [Event.InitStagingConsensus]) = (Outcome.returned (some e), e1))
    (hNotRecoverable : w.IsRecoverableError e = false) :
    ((ibdWithHeadersProof w fuel highHash).run tr).1 = Outcome.returned (some e) ∧
    Event.DeleteStagingConsensus ∉ ((ibdWithHeadersProof w fuel highHash).run tr).2 ∧
    Event.CommitStagingConsensus ∉ ((ibdWithHeadersProof w fuel highHash).run tr).2 := by
  have hl := downloadHeadersAndPruningUTXOSet_lifecycle w fuel highHash
    (tr ++ [Event.InitStagingConsensus])
  rw [hDownload] at hl
  rw [ibdWithHeadersProof_run_failed w fuel highHash tr e e1 hInit hDownload]
  simp [hNotRecoverable, hl.2.1, hl.2.2]

/-- Witness of C3: the link is dead, the error is recoverable and the staging consensus
is deleted without error. -/
theorem ibdWithHeadersProof_recoverable_witness :
    (deadLinkWorld true none).InitStagingConsensus [] = none ∧
    (downloadHeadersAndPruningUTXOSet (deadLinkWorld true none) 1 99).run
      ([] ++ [Event.InitStagingConsensus]) =
      (Outcome.returned (some (Err.infra 1)),
        [Event.Enqueue OutMsg.RequestPruningPointProof]) ∧
    (deadLinkWorld true none).IsRecoverableError (Err.infra 1) = true ∧
    ((ibdWithHeadersProof (deadLinkWorld true none) 1 99).run []).1 =
      Outcome.returned (some (Err.infra 1)) ∧
    ((ibdWithHeadersProof (deadLinkWorld true none) 1 99).run []).2 =
      [Event.InitStagingConsensus, Event.Enqueue OutMsg.RequestPruningPointProof,
        Event.DeleteStagingConsensus] :=
  ⟨rfl, rfl, rfl,
    (ibdWithHeadersProof_recoverable (deadLinkWorld true none) 1 99 [] (Err.infra 1)
      [Event.Enqueue OutMsg.RequestPruningPointProof] rfl rfl rfl).1,
    (ibdWithHeadersProof_recoverable (deadLinkWorld true none) 1 99 [] (Err.infra 1)
      [Event.Enqueue OutMsg.RequestPruningPointProof] rfl rfl rfl).2.1⟩

/-- C3 as stated fails: the download returns the recoverable error `infra 1`,
DeleteStagingConsensus fails with `infra 2`, and ibdWithHeadersProof returns `infra 2`,
not the error of the download. -/
theorem ibdWithHeadersProof_recoverable_deleteFails :
    (deadLinkWorld true (some (Err.infra 2))).InitStagingConsensus [] = none ∧
    (downloadHeadersAndPruningUTXOSet (deadLinkWorld true (some (Err.infra 2))) 1 99).run
      [Event.InitStagingConsensus] =
      (Outcome.returned (some (Err.infra 1)),
        [Event.Enqueue OutMsg.RequestPruningPointProof]) ∧
    (deadLinkWorld true (some (Err.infra 2))).IsRecoverableError (Err.infra 1) = true ∧
    ((ibdWithHeadersProof (deadLinkWorld true (some (Err.infra 2))) 1 99).run []).1 =
      Outcome.returned (some (Err.infra 2)) ∧
    ((ibdWithHeadersProof (deadLinkWorld true (some (Err.infra 2))) 1 99).run []).1 ≠
      Outcome.returned (some (Err.infra 1)) := by
  refine ⟨rfl, rfl, rfl, rfl, ?_⟩
  show Outcome.returned (some (Err.infra 2)) ≠ Outcome.returned (some (Err.infra 1))
  decide

/-- Witness of C4: the link is dead and the error is not recoverable. -/
theorem ibdWithHeadersProof_nonRecoverable_witness :
    (deadLinkWorld false none).InitStagingConsensus [] = none ∧
    (downloadHeadersAndPruningUTXOSet (deadLinkWorld false none) 1 99).run
      ([] ++ [Event.InitStagingConsensus]) =
      (Outcome.returned (some (Err.infra 1)),
        [Event.Enqueue OutMsg.RequestPruningPointProof]) ∧
    (deadLinkWorld false none).IsRecoverableError (Err.infra 1) = false ∧
    (((ibdWithHeadersProof (deadLinkWorld false none) 1 99).run []).1 =
      Outcome.returned (some (Err.infra 1)) ∧
    Event.DeleteStagingConsensus ∉
      ((ibdWithHeadersProof (deadLinkWorld false none) 1 99).run []).2 ∧
    Event.CommitStagingConsensus ∉
      ((ibdWithHeadersProof (deadLinkWorld false none) 1 99).run []).2) :=
  ⟨rfl, rfl, rfl,
    ibdWithHeadersProof_nonRecoverable (deadLinkWorld false none) 1 99 [] (Err.infra 1)
      [Event.Enqueue OutMsg.RequestPruningPointProof] rfl rfl rfl⟩

/-! ## C2: the soft abort -/

/-- C2 at a concrete session: staging init, the proof, anticone, header and timestamp
phases succeed, the UTXO-set sync returns (false, nil) because the stream was
incomplete, the download returns nil, and ibdWithHeadersProof then calls
CommitStagingConsensus as its last call before it returns nil. -/
theorem ibdWithHeadersProof_softAbort_commits :
    (syncPruningPointUTXOSet softAbortWorld ConsensusRef.staging 7).run
      softAbortHeadersTrace = (Outcome.returned (false, none), softAbortUTXOTrace) ∧
    (downloadHeadersAndPruningUTXOSet softAbortWorld 2 99).run [Event.InitStagingConsensus] =
      (Outcome.returned none, softAbortHeadersTrace.tail ++ softAbortUTXOTrace) ∧
    (ibdWithHeadersProof softAbortWorld 2 99).run [] =
      (Outcome.returned none,
        softAbortHeadersTrace ++ softAbortUTXOTrace ++ [Event.CommitStagingConsensus]) ∧
    Event.CommitStagingConsensus ∈ ((ibdWithHeadersProof softAbortWorld 2 99).run []).2 := by
  have h : (ibdWithHeadersProof softAbortWorld 2 99).run [] =
      (Outcome.returned none,
        softAbortHeadersTrace ++ softAbortUTXOTrace ++ [Event.CommitStagingConsensus]) := rfl
  refine ⟨rfl, rfl, h, ?_⟩
  rw [h]
  simp

/-! ## C6: the scoped cleanup of fetchMissingUTXOSet -/

/-- The calls of the body of fetchMissingUTXOSet are an initial part, not empty, of the
request, the reception of the stream, the validation of the imported pruning point and
the override hook. -/
theorem fetchMissingUTXOSetBody_events (w : World) (consensus : ConsensusRef)
    (pruningPointHash : DomainHash) (tr : List Event) :
    ((fetchMissingUTXOSetBody w consensus pruningPointHash).run tr).2 ∈
      [List.take 1 [Event.Enqueue (OutMsg.RequestPruningPointUTXOSet pruningPointHash),
          Event.receiveAndInsertPruningPointUTXOSet consensus pruningPointHash,
          Event.StagingValidateAndInsertImportedPruningPoint pruningPointHash,
          Event.OnPruningPointUTXOSetOverride],
       List.take 2 [Event.Enqueue (OutMsg.RequestPruningPointUTXOSet pruningPointHash),
          Event.receiveAndInsertPruningPointUTXOSet consensus pruningPointHash,
          Event.StagingValidateAndInsertImportedPruningPoint pruningPointHash,
          Event.OnPruningPointUTXOSetOverride],
       List.take 3 [Event.Enqueue (OutMsg.RequestPruningPointUTXOSet pruningPointHash),
          Event.receiveAndInsertPruningPointUTXOSet consensus pruningPointHash,
          Event.StagingValidateAndInsertImportedPruningPoint pruningPointHash,
          Event.OnPruningPointUTXOSetOverride],
       List.take 4 [Event.Enqueue (OutMsg.RequestPruningPointUTXOSet pruningPointHash),
          Event.receiveAndInsertPruningPointUTXOSet consensus pruningPointHash,
          Event.StagingValidateAndInsertImportedPruningPoint pruningPointHash,
          Event.OnPruningPointUTXOSetOverride]] := by
  unfold fetchMissingUTXOSetBody
  simp only [Flow.run_bind, Flow.bind_call]
  split
  · simp
  · simp only [Flow.run_bind, Flow.bind_call]
    split
    · simp
    · simp
    · simp only [Flow.run_bind, Flow.bind_call]
      split
      · split <;> simp
      · simp only [Flow.run_bind, Flow.bind_call]
        split <;> simp

/-- The calls of fetchMissingUTXOSet: an initial part, not empty, of the four calls of
the body, and then the deferred ClearImportedPruningPointData. -/
theorem fetchMissingUTXOSet_events (w : World) (consensus : ConsensusRef)
    (pruningPointHash : DomainHash) (tr : List Event) :
    ∃ n, 1 ≤ n ∧ n ≤ 4 ∧ ((fetchMissingUTXOSet w consensus pruningPointHash).run tr).2 =
      List.take n [Event.Enqueue (OutMsg.RequestPruningPointUTXOSet pruningPointHash),
        Event.receiveAndInsertPruningPointUTXOSet consensus pruningPointHash,
        Event.StagingValidateAndInsertImportedPruningPoint pruningPointHash,
        Event.OnPruningPointUTXOSetOverride] ++
      [Event.StagingClearImportedPruningPointData] := by
  have hb := fetchMissingUTXOSetBody_events w consensus pruningPointHash tr
  rw [fetchMissingUTXOSet_run]
  simp only [List.mem_cons, List.mem_singleton, List.not_mem_nil, or_false] at hb
  rcases hb with h | h | h | h
  · exact ⟨1, by decide, by decide, by rw [h]⟩
  · exact ⟨2, by decide, by decide, by rw [h]⟩
  · exact ⟨3, by decide, by decide, by rw [h]⟩
  · exact ⟨4, by decide, by decide, by rw [h]⟩

/-- C6: on every run of fetchMissingUTXOSet, whatever the collaborators answer, the
function neither loops nor skips the deferred call: ClearImportedPruningPointData is
called exactly once and it is the last call of the run; before it come, in this order
and cut at the point of exit, the request, the reception of the stream, the validation
of the imported pruning point and the override hook. -/
theorem fetchMissingUTXOSet_cleanup (w : World) (consensus : ConsensusRef)
    (pruningPointHash : DomainHash) (tr : List Event) :
    ((fetchMissingUTXOSet w consensus pruningPointHash).run tr).2.count
      Event.StagingClearImportedPruningPointData = 1 ∧
    ((fetchMissingUTXOSet w consensus pruningPointHash).run tr).2.getLast? =
      some Event.StagingClearImportedPruningPointData ∧
    ((fetchMissingUTXOSet w consensus pruningPointHash).run tr).1 ≠ Outcome.outOfFuel ∧
    ∃ n, 1 ≤ n ∧ ((fetchMissingUTXOSet w consensus pruningPointHash).run tr).2 =
      List.take n [Event.Enqueue (OutMsg.RequestPruningPointUTXOSet pruningPointHash),
        Event.receiveAndInsertPruningPointUTXOSet consensus pruningPointHash,
        Event.StagingValidateAndInsertImportedPruningPoint pruningPointHash,
        Event.OnPruningPointUTXOSetOverride] ++
      [Event.StagingClearImportedPruningPointData] := by
  obtain ⟨n, hn1, hn4, he⟩ := fetchMissingUTXOSet_events w consensus pruningPointHash tr
  have hr := fetchMissingUTXOSetBody_isReturned w consensus pruningPointHash tr
  refine ⟨?_, ?_, ?_, n, hn1, he⟩
  · rw [he]
    have hn : n = 1 ∨ n = 2 ∨ n = 3 ∨ n = 4 := by omega
    rcases hn with h | h | h | h <;> subst h <;> simp [List.count_cons]
  · rw [he]
    simp
  · rw [fetchMissingUTXOSet_run]
    obtain ⟨r, hr2⟩ := (Outcome.isReturned_iff _).1 hr
    rw [hr2]
    split <;> simp

/-! ## C5: the cleanup over a whole session -/

/-- In a run of syncPruningPointUTXOSet the request of the UTXO set is enqueued exactly
when ClearImportedPruningPointData is called. -/
theorem syncPruningPointUTXOSet_cleanup (w : World) (consensus : ConsensusRef)
    (pruningPoint : DomainHash) (tr : List Event) :
    (∃ q, Event.Enqueue (OutMsg.RequestPruningPointUTXOSet q) ∈
      ((syncPruningPointUTXOSet w consensus pruningPoint).run tr).2) ↔
    Event.StagingClearImportedPruningPointData ∈
      ((syncPruningPointUTXOSet w consensus pruningPoint).run tr).2 := by
  rw [syncPruningPointUTXOSet_run]
  split
  · simp
  · simp
  · obtain ⟨n, hn, _, he⟩ := fetchMissingUTXOSet_events w consensus pruningPoint
      (tr ++ [Event.StagingIsValidPruningPoint pruningPoint])
    rw [he]
    constructor
    · intro _
      simp
    · intro _
      refine ⟨pruningPoint, ?_⟩
      obtain ⟨m, rfl⟩ : ∃ m, n = m + 1 := ⟨n - 1, by omega⟩
      simp [List.take]

/-- In a run of the download the request of the UTXO set is enqueued exactly when
ClearImportedPruningPointData is called. -/
theorem downloadHeadersAndPruningUTXOSet_cleanup (w : World) (fuel : Nat)
    (highHash : DomainHash) (tr : List Event) :
    (∃ q, Event.Enqueue (OutMsg.RequestPruningPointUTXOSet q) ∈
      ((downloadHeadersAndPruningUTXOSet w fuel highHash).run tr).2) ↔
    Event.StagingClearImportedPruningPointData ∈
      ((downloadHeadersAndPruningUTXOSet w fuel highHash).run tr).2 := by
  rcases downloadHeadersAndPruningUTXOSet_cases w fuel highHash tr with h | h
  · constructor
    · rintro ⟨q, hq⟩
      exact absurd (h _ hq) (by simp [headersPhaseEvent, proofPhaseEvent, anticonePhaseEvent,
        pruningPointsEvent, trustedDataEvent])
    · intro hc
      exact absurd (h _ hc) (by decide)
  · obtain ⟨pre, p, info, hpre, _, _, he⟩ := h
    have hs := syncPruningPointUTXOSet_cleanup w ConsensusRef.staging p
      (tr ++ pre ++ [Event.StagingGetBlockInfo highHash,
        Event.validatePruningPointFutureHeaderTimestamps])
    rw [he]
    constructor
    · rintro ⟨q, hq⟩
      simp only [List.mem_append, List.mem_cons] at hq
      rcases hq with hq | hq | hq | hq
      · exact absurd (hpre _ hq) (by simp [headersPhaseEvent, proofPhaseEvent,
          anticonePhaseEvent, pruningPointsEvent, trustedDataEvent])
      · exact absurd hq (by simp)
      · exact absurd hq (by simp)
      · simp only [List.mem_append, List.mem_cons]
        exact Or.inr (Or.inr (Or.inr (hs.1 ⟨q, hq⟩)))
    · intro hc
      simp only [List.mem_append, List.mem_cons] at hc
      rcases hc with hc | hc | hc | hc
      · exact absurd (hpre _ hc) (by decide)
      · exact absurd hc (by simp)
      · exact absurd hc (by simp)
      · obtain ⟨q, hq⟩ := hs.2 hc
        exact ⟨q, by simp only [List.mem_append, List.mem_cons]
                     exact Or.inr (Or.inr (Or.inr hq))⟩

/-- The calls of ibdWithHeadersProof after a successful init: the init, the calls of the
download, and at most DeleteStagingConsensus or CommitStagingConsensus after them. -/
theorem ibdWithHeadersProof_events (w : World) (fuel : Nat) (highHash : DomainHash)
    (tr : List Event) (hInit : w.InitStagingConsensus tr = none) :
    ∃ rest, ((ibdWithHeadersProof w fuel highHash).run tr).2 =
        Event.InitStagingConsensus ::
          (((downloadHeadersAndPruningUTXOSet w fuel highHash).run
            (tr ++ [Event.InitStagingConsensus])).2 ++ rest) ∧
      ∀ ev ∈ rest, ev = Event.DeleteStagingConsensus ∨ ev = Event.CommitStagingConsensus := by
  unfold ibdWithHeadersProof
  simp only [Flow.run_bind, Flow.bind_call, hInit]
  rcases hd : (downloadHeadersAndPruningUTXOSet w fuel highHash).run
    (tr ++ [Event.InitStagingConsensus]) with ⟨o, e1⟩
  cases o with
  | panicked m => exact ⟨[], by rw [Flow.bind_panicked _ _ _ _ _ hd]; simp, by simp⟩
  | outOfFuel => exact ⟨[], by rw [Flow.bind_outOfFuel _ _ _ _ hd]; simp, by simp⟩
  | returned r =>
    rw [Flow.bind_returned _ _ _ _ _ hd]
    cases r with
    | none =>
      refine ⟨[Event.CommitStagingConsensus], ?_, by simp⟩
      simp only [Flow.run_bind, Flow.bind_call]
      split <;> simp
    | some e =>
      cases hr : w.IsRecoverableError e
      · exact ⟨[], by simp [hr], by simp⟩
      · refine ⟨[Event.DeleteStagingConsensus], ?_, by simp⟩
        simp only [hr, Bool.not_true, Bool.false_eq_true, if_false, Flow.run_bind,
          Flow.bind_call]
        split <;> simp

/-- C5, as the code has it: in a run of ibdWithHeadersProof whose init succeeded,
ClearImportedPruningPointData is called between the init and the end of the run exactly
when the session reached the fetch of the UTXO set, that is, when the request
RequestPruningPointUTXOSet was enqueued. -/
theorem ibdWithHeadersProof_cleanup (w : World) (fuel : Nat) (highHash : DomainHash)
    (tr : List Event) (hInit : w.InitStagingConsensus tr = none) :
    (∃ q, Event.Enqueue (OutMsg.RequestPruningPointUTXOSet q) ∈
      ((ibdWithHeadersProof w fuel highHash).run tr).2) ↔
    Event.StagingClearImportedPruningPointData ∈
      ((ibdWithHeadersProof w fuel highHash).run tr).2 := by
  obtain ⟨rest, he, hrest⟩ := ibdWithHeadersProof_events w fuel highHash tr hInit
  have hd := downloadHeadersAndPruningUTXOSet_cleanup w fuel highHash
    (tr ++ [Event.InitStagingConsensus])
  rw [he]
  constructor
  · rintro ⟨q, hq⟩
    simp only [List.mem_cons, List.mem_append] at hq
    rcases hq with hq | hq | hq
    · exact absurd hq (by simp)
    · simp only [List.mem_cons, List.mem_append]
      exact Or.inr (Or.inl (hd.1 ⟨q, hq⟩))
    · rcases hrest _ hq with h | h <;> exact absurd h (by simp)
  · intro hc
    simp only [List.mem_cons, List.mem_append] at hc
    rcases hc with hc | hc | hc
    · exact absurd hc (by simp)
    · obtain ⟨q, hq⟩ := hd.2 hc
      exact ⟨q, by simp only [List.mem_cons, List.mem_append]
                   exact Or.inr (Or.inl hq)⟩
    · rcases hrest _ hc with h | h <;> exact absurd h (by simp)

/-- Witness of C5: the honest session reaches the fetch of the UTXO set and clears the
imported pruning point data. -/
theorem ibdWithHeadersProof_cleanup_witness :
    (scriptedWorld honestScript).InitStagingConsensus [] = none ∧
    ((∃ q, Event.Enqueue (OutMsg.RequestPruningPointUTXOSet q) ∈
      ((ibdWithHeadersProof (scriptedWorld honestScript) 2 99).run []).2) ↔
    Event.StagingClearImportedPruningPointData ∈
      ((ibdWithHeadersProof (scriptedWorld honestScript) 2 99).run []).2) ∧
    Event.Enqueue (OutMsg.RequestPruningPointUTXOSet 7) ∈
      ((ibdWithHeadersProof (scriptedWorld honestScript) 2 99).run []).2 :=
  ⟨rfl, ibdWithHeadersProof_cleanup (scriptedWorld honestScript) 2 99 [] rfl, by decide⟩

/-- C5 as stated fails: the init succeeds, the session exits from the proof phase because
the request cannot be enqueued, and ClearImportedPruningPointData is not called. -/
theorem ibdWithHeadersProof_cleanup_proofPhaseExit :
    (deadLinkWorld true none).InitStagingConsensus [] = none ∧
    (ibdWithHeadersProof (deadLinkWorld true none) 1 99).run [] =
      (Outcome.returned (some (Err.infra 1)),
        [Event.InitStagingConsensus, Event.Enqueue OutMsg.RequestPruningPointProof,
          Event.DeleteStagingConsensus]) ∧
    Event.StagingClearImportedPruningPointData ∉
      ((ibdWithHeadersProof (deadLinkWorld true none) 1 99).run []).2 := by
  refine ⟨rfl, rfl, ?_⟩
  decide

/-! ## C7 and C8: the pruning points -/

/-- The run of validateAndInsertPruningPoints, call by call. -/
theorem validateAndInsertPruningPoints_run (w : World) (proofPruningPoint : DomainHash)
    (tr : List Event) :
    (validateAndInsertPruningPoints w proofPruningPoint).run tr =
      match w.PruningPoint tr with
      | Except.error err => (Outcome.returned (some err), [Event.PruningPoint])
      | Except.ok currentPruningPoint =>
        if currentPruningPoint = proofPruningPoint then
          (Outcome.returned (some (protocolerrors.Errorf true
            "the proposed pruning point is the same as the current pruning point")),
           [Event.PruningPoint])
        else
          match w.Dequeue (tr ++ [Event.PruningPoint]) with
          | Except.error err =>
            (Outcome.returned (some err), [Event.PruningPoint, Event.Dequeue])
          | Except.ok (Message.PruningPoints m) =>
            match w.ArePruningPointsViolatingFinality
                (tr ++ [Event.PruningPoint, Event.Dequeue])
                (m.Headers.map w.BlockHeaderToDomainBlockHeader) with
            | Except.error err =>
              (Outcome.returned (some err),
               [Event.PruningPoint, Event.Dequeue,
                Event.ArePruningPointsViolatingFinality
                  (m.Headers.map w.BlockHeaderToDomainBlockHeader)])
            | Except.ok true =>
              (Outcome.returned (some (protocolerrors.Errorf false
                "pruning points are violating finality")),
               [Event.PruningPoint, Event.Dequeue,
                Event.ArePruningPointsViolatingFinality
                  (m.Headers.map w.BlockHeaderToDomainBlockHeader)])
            | Except.ok false =>
              match (m.Headers.map w.BlockHeaderToDomainBlockHeader).getLast? with
              | none =>
                (Outcome.panicked "index out of range [-1]",
                 [Event.PruningPoint, Event.Dequeue,
                  Event.ArePruningPointsViolatingFinality
                    (m.Headers.map w.BlockHeaderToDomainBlockHeader)])
              | some lastHeader =>
                if w.HeaderHash lastHeader ≠ proofPruningPoint then
                  (Outcome.returned (some (protocolerrors.Errorf true
                    "the proof pruning point is not equal to the last pruning point in the list")),
                   [Event.PruningPoint, Event.Dequeue,
                    Event.ArePruningPointsViolatingFinality
                      (m.Headers.map w.BlockHeaderToDomainBlockHeader)])
                else
                  (Outcome.returned
                    (w.StagingImportPruningPoints
                      (tr ++ [Event.PruningPoint, Event.Dequeue,
                        Event.ArePruningPointsViolatingFinality
                          (m.Headers.map w.BlockHeaderToDomainBlockHeader)])
                      (m.Headers.map w.BlockHeaderToDomainBlockHeader)),
                   [Event.PruningPoint, Event.Dequeue,
                    Event.ArePruningPointsViolatingFinality
                      (m.Headers.map w.BlockHeaderToDomainBlockHeader),
                    Event.StagingImportPruningPoints
                      (m.Headers.map w.BlockHeaderToDomainBlockHeader)])
          | Except.ok _ =>
            (Outcome.returned (some (protocolerrors.Errorf true
              "received unexpected message type. expected: %s, got: %s")),
             [Event.PruningPoint, Event.Dequeue]) := by
  rcases h1 : w.PruningPoint tr with err | cur
  · simp [validateAndInsertPruningPoints, h1]
  · by_cases hc : cur = proofPruningPoint
    · simp [validateAndInsertPruningPoints, h1, hc]
    · rcases h2 : w.Dequeue (tr ++ [Event.PruningPoint]) with err | msg
      · simp [validateAndInsertPruningPoints, receivePruningPoints, Flow.bind, h1, hc, h2]
      · cases msg with
        | PruningPoints m =>
          rcases h3 : w.ArePruningPointsViolatingFinality
            (tr ++ [Event.PruningPoint, Event.Dequeue])
            (m.Headers.map w.BlockHeaderToDomainBlockHeader) with err | viol
          · simp [validateAndInsertPruningPoints, receivePruningPoints, Flow.bind, h1, hc, h2,
              h3]
          · cases viol
            · rcases h4 : (m.Headers.map w.BlockHeaderToDomainBlockHeader).getLast?
                with _ | lastHeader
              · simp only [validateAndInsertPruningPoints, receivePruningPoints, Flow.bind,
                  Flow.run_bind, Flow.run_call, Flow.run_pure, h1, hc, h2, if_false,
                  List.append_nil, List.append_assoc, List.singleton_append, h3, h4,
                  Bool.false_eq_true, Flow.run_panic, List.cons_append, List.nil_append]
              · by_cases hh : w.HeaderHash lastHeader = proofPruningPoint
                · rcases h5 : w.StagingImportPruningPoints
                    (tr ++ [Event.PruningPoint, Event.Dequeue,
                      Event.ArePruningPointsViolatingFinality
                        (m.Headers.map w.BlockHeaderToDomainBlockHeader)])
                    (m.Headers.map w.BlockHeaderToDomainBlockHeader) with _ | e <;>
                  simp only [validateAndInsertPruningPoints, receivePruningPoints, Flow.bind,
                    Flow.run_bind, Flow.run_call, Flow.run_pure, h1, hc, h2, if_false,
                    List.append_nil, List.append_assoc, List.singleton_append, h3, h4, h5,
                    Bool.false_eq_true, Flow.run_panic, List.cons_append, List.nil_append,
                    hh, ne_eq, not_true_eq_false]
                · simp only [validateAndInsertPruningPoints, receivePruningPoints, Flow.bind,
                    Flow.run_bind, Flow.run_call, Flow.run_pure, h1, hc, h2, if_false,
                    List.append_nil, List.append_assoc, List.singleton_append, h3, h4,
                    Bool.false_eq_true, Flow.run_panic, List.cons_append, List.nil_append,
                    hh, ne_eq, not_false_eq_true, if_true]
            · simp [validateAndInsertPruningPoints, receivePruningPoints, Flow.bind, h1, hc, h2,
                h3]
        | _ =>
          simp [validateAndInsertPruningPoints, receivePruningPoints, Flow.bind, h1, hc, h2]

/-- C7, as the code has it: when the local pruning point differs from proofPruningPoint,
a PruningPoints frame is received, the finality check succeeds and reports no violation,
and the last header of the frame hashes to a value different from proofPruningPoint, then
validateAndInsertPruningPoints returns a banning protocol error and does not call
ImportPruningPoints. -/
theorem validateAndInsertPruningPoints_mismatch (w : World) (proofPruningPoint : DomainHash)
    (tr : List Event) (currentPruningPoint : DomainHash) (m : MsgPruningPoints)
    (lastHeader : BlockHeader)
    (hCurrent : w.PruningPoint tr = Except.ok currentPruningPoint)
    (hDiffers : currentPruningPoint ≠ proofPruningPoint)
    (hFrame : w.Dequeue (tr ++ [Event.PruningPoint]) = Except.ok (Message.PruningPoints m))
    (hFinality : w.ArePruningPointsViolatingFinality
      (tr ++ [Event.PruningPoint, Event.Dequeue])
      (m.Headers.map w.BlockHeaderToDomainBlockHeader) = Except.ok false)
    (hLast : (m.Headers.map w.BlockHeaderToDomainBlockHeader).getLast? = some lastHeader)
    (hMismatch : w.HeaderHash lastHeader ≠ proofPruningPoint) :
    ((validateAndInsertPruningPoints w proofPruningPoint).run tr).1 =
      Outcome.returned (some (protocolerrors.Errorf true
        "the proof pruning point is not equal to the last pruning point in the list")) ∧
    (protocolerrors.Errorf true
      "the proof pruning point is not equal to the last pruning point in the list").shouldBan
        = true ∧
    ∀ headers, Event.StagingImportPruningPoints headers ∉
      ((validateAndInsertPruningPoints w proofPruningPoint).run tr).2 := by
  have hrun : (validateAndInsertPruningPoints w proofPruningPoint).run tr =
      (Outcome.returned (some (protocolerrors.Errorf true
        "the proof pruning point is not equal to the last pruning point in the list")),
       [Event.PruningPoint, Event.Dequeue,
        Event.ArePruningPointsViolatingFinality
          (m.Headers.map w.BlockHeaderToDomainBlockHeader)]) := by
    rw [validateAndInsertPruningPoints_run]
    simp only [hCurrent, hDiffers, if_false, hFrame, hFinality, hLast, hMismatch, ne_eq,
      not_false_eq_true, if_true]
  rw [hrun]
  refine ⟨rfl, rfl, ?_⟩
  intro headers
  simp

/-- Witness of C7: the local pruning point is 1, the peer sends the pruning points 5 and
6, the list is final, and the proof claimed the pruning point 7. -/
theorem validateAndInsertPruningPoints_mismatch_witness :
    mismatchWorld.PruningPoint [] = Except.ok 1 ∧ (1 : DomainHash) ≠ 7 ∧
    mismatchWorld.Dequeue ([] ++ [Event.PruningPoint]) =
      Except.ok (Message.PruningPoints ⟨[wireHeader 5, wireHeader 6]⟩) ∧
    mismatchWorld.HeaderHash ⟨0, 0, 6⟩ ≠ 7 ∧
    (((validateAndInsertPruningPoints mismatchWorld 7).run []).1 =
      Outcome.returned (some (protocolerrors.Errorf true
        "the proof pruning point is not equal to the last pruning point in the list")) ∧
    (protocolerrors.Errorf true
      "the proof pruning point is not equal to the last pruning point in the list").shouldBan
        = true ∧
    ∀ headers, Event.StagingImportPruningPoints headers ∉
      ((validateAndInsertPruningPoints mismatchWorld 7).run []).2) :=
  ⟨rfl, by decide, rfl, by decide,
    validateAndInsertPruningPoints_mismatch mismatchWorld 7 [] 1
      ⟨[wireHeader 5, wireHeader 6]⟩ ⟨0, 0, 6⟩ rfl (by decide) rfl rfl rfl (by decide)⟩

/-- C7 as stated fails: the local pruning point 1 differs from the proof pruning point 7,
no consensus call fails, the last header of the frame hashes to 6, but the finality check
reports a violation, and validateAndInsertPruningPoints returns a protocol error whose
ban flag is false. -/
theorem validateAndInsertPruningPoints_mismatch_finalityFirst :
    finalityViolationWorld.PruningPoint [] = Except.ok 1 ∧
    finalityViolationWorld.Dequeue [Event.PruningPoint] =
      Except.ok (Message.PruningPoints ⟨[wireHeader 5, wireHeader 6]⟩) ∧
    finalityViolationWorld.ArePruningPointsViolatingFinality
      [Event.PruningPoint, Event.Dequeue] [⟨0, 0, 5⟩, ⟨0, 0, 6⟩] = Except.ok true ∧
    finalityViolationWorld.HeaderHash ⟨0, 0, 6⟩ = 6 ∧
    ((validateAndInsertPruningPoints finalityViolationWorld 7).run []).1 =
      Outcome.returned (some (Err.protocol false "pruning points are violating finality")) ∧
    (Err.protocol false "pruning points are violating finality").shouldBan = false :=
  ⟨rfl, rfl, rfl, rfl, rfl, rfl⟩

/-- C8: in a run of validateAndInsertPruningPoints, (1) if a PruningPoints frame is
received and ArePruningPointsViolatingFinality returns true on it, the function returns a
protocol error whose ban flag is false and ImportPruningPoints is not called; (2) if
ImportPruningPoints is called, its argument is the list of the received headers in
received order, the finality check reported no violation on that list, and the last
header of the list hashes to proofPruningPoint. -/
theorem validateAndInsertPruningPoints_finality (w : World) (proofPruningPoint : DomainHash)
    (tr : List Event) :
    (∀ currentPruningPoint m,
      w.PruningPoint tr = Except.ok currentPruningPoint →
      currentPruningPoint ≠ proofPruningPoint →
      w.Dequeue (tr ++ [Event.PruningPoint]) = Except.ok (Message.PruningPoints m) →
      w.ArePruningPointsViolatingFinality (tr ++ [Event.PruningPoint, Event.Dequeue])
        (m.Headers.map w.BlockHeaderToDomainBlockHeader) = Except.ok true →
      ((validateAndInsertPruningPoints w proofPruningPoint).run tr).1 =
        Outcome.returned (some (protocolerrors.Errorf false
          "pruning points are violating finality")) ∧
      (protocolerrors.Errorf false "pruning points are violating finality").shouldBan
        = false ∧
      ∀ headers, Event.StagingImportPruningPoints headers ∉
        ((validateAndInsertPruningPoints w proofPruningPoint).run tr).2) ∧
    (∀ headers, Event.StagingImportPruningPoints headers ∈
        ((validateAndInsertPruningPoints w proofPruningPoint).run tr).2 →
      ∃ m lastHeader,
        w.Dequeue (tr ++ [Event.PruningPoint]) = Except.ok (Message.PruningPoints m) ∧
        headers = m.Headers.map w.BlockHeaderToDomainBlockHeader ∧
        w.ArePruningPointsViolatingFinality (tr ++ [Event.PruningPoint, Event.Dequeue])
          headers = Except.ok false ∧
        headers.getLast? = some lastHeader ∧
        w.HeaderHash lastHeader = proofPruningPoint) := by
  constructor
  · intro currentPruningPoint m hCurrent hDiffers hFrame hFinality
    have hrun : (validateAndInsertPruningPoints w proofPruningPoint).run tr =
        (Outcome.returned (some (protocolerrors.Errorf false
          "pruning points are violating finality")),
         [Event.PruningPoint, Event.Dequeue,
          Event.ArePruningPointsViolatingFinality
            (m.Headers.map w.BlockHeaderToDomainBlockHeader)]) := by
      rw [validateAndInsertPruningPoints_run]
      simp only [hCurrent, hDiffers, if_false, hFrame, hFinality]
    rw [hrun]
    refine ⟨rfl, rfl, ?_⟩
    intro headers
    simp
  · intro headers hmem
    rw [validateAndInsertPruningPoints_run] at hmem
    split at hmem
    · simp at hmem
    · split at hmem
      · simp at hmem
      · split at hmem
        · simp at hmem
        · rename_i m hFrame
          split at hmem
          · simp at hmem
          · simp at hmem
          · rename_i hFinality
            split at hmem
            · simp at hmem
            · rename_i lastHeader hLast
              split at hmem
              · simp at hmem
              · rename_i hHash
                have hEq : headers = m.Headers.map w.BlockHeaderToDomainBlockHeader := by
                  simpa using hmem
                subst hEq
                exact ⟨m, lastHeader, hFrame, rfl, hFinality, hLast, by simpa using hHash⟩
        · simp at hmem

/-- Witness of C8: a frame on which the finality check reports a violation is rejected
with a non-banning error, and in the session of `pruningPointsWorld` the imported list is
the received one, final, and ends in the proof pruning point 7. -/
theorem validateAndInsertPruningPoints_finality_witness :
    (((validateAndInsertPruningPoints finalityViolationWorld 7).run []).1 =
        Outcome.returned (some (protocolerrors.Errorf false
          "pruning points are violating finality")) ∧
      (protocolerrors.Errorf false "pruning points are violating finality").shouldBan
        = false ∧
      ∀ headers, Event.StagingImportPruningPoints headers ∉
        ((validateAndInsertPruningPoints finalityViolationWorld 7).run []).2) ∧
    Event.StagingImportPruningPoints [header5, header7] ∈
      ((validateAndInsertPruningPoints pruningPointsWorld 7).run []).2 ∧
    (∃ m lastHeader,
      pruningPointsWorld.Dequeue ([] ++ [Event.PruningPoint]) =
        Except.ok (Message.PruningPoints m) ∧
      [header5, header7] = m.Headers.map pruningPointsWorld.BlockHeaderToDomainBlockHeader ∧
      pruningPointsWorld.ArePruningPointsViolatingFinality
        ([] ++ [Event.PruningPoint, Event.Dequeue]) [header5, header7] = Except.ok false ∧
      [header5, header7].getLast? = some lastHeader ∧
      pruningPointsWorld.HeaderHash lastHeader = 7) :=
  ⟨(validateAndInsertPruningPoints_finality finalityViolationWorld 7 []).1 1
      ⟨[wireHeader 5, wireHeader 6]⟩ rfl (by decide) rfl rfl,
    by decide,
    (validateAndInsertPruningPoints_finality pruningPointsWorld 7 []).2 [header5, header7]
      (by decide)⟩

/-! ## C9: the first block of the trusted-data stream -/

/-- The run of receiveBlockWithTrustedData. -/
theorem receiveBlockWithTrustedData_run (w : World) (tr : List Event) :
    (receiveBlockWithTrustedData w).run tr =
      (Outcome.returned
        (match w.Dequeue tr with
          | Except.error err => (none, false, some err)
          | Except.ok (Message.BlockWithTrustedData downCastedMessage) =>
            (some downCastedMessage, false, none)
          | Except.ok Message.DoneBlocksWithTrustedData => (none, true, none)
          | Except.ok _ =>
            (none, false, some (protocolerrors.Errorf true
              "received unexpected message type. expected: %s or %s, got: %s"))),
       [Event.Dequeue]) := by
  unfold receiveBlockWithTrustedData
  simp only [Flow.run_bind, Flow.bind_call]
  rcases w.Dequeue tr with err | msg
  · rfl
  · cases msg <;> rfl

/-- C9: in syncPruningPointsAndPruningPointAnticone, after the request was enqueued and
the pruning points were accepted, if the first frame of the trusted-data stream is
DoneBlocksWithTrustedData, or a BlockWithTrustedData whose block hash differs from
proofPruningPoint, the function returns a banning protocol error, and
ValidateAndInsertBlockWithTrustedData has not been called on staging for any block. -/
theorem syncPruningPointsAndPruningPointAnticone_firstBlock (w : World) (fuel : Nat)
    (proofPruningPoint : DomainHash) (tr : List Event) (e1 : List Event)
    (hEnqueue : w.Enqueue tr OutMsg.RequestPruningPointAndItsAnticone = none)
    (hPruningPoints : (validateAndInsertPruningPoints w proofPruningPoint).run
      (tr ++ [Event.Enqueue OutMsg.RequestPruningPointAndItsAnticone]) =
        (Outcome.returned none, e1))
    (hFirst :
      w.Dequeue (tr ++ [Event.Enqueue OutMsg.RequestPruningPointAndItsAnticone] ++ e1) =
        Except.ok Message.DoneBlocksWithTrustedData ∨
      ∃ b, w.Dequeue (tr ++ [Event.Enqueue OutMsg.RequestPruningPointAndItsAnticone] ++ e1) =
          Except.ok (Message.BlockWithTrustedData b) ∧
        w.BlockHash b.Block.Header ≠ proofPruningPoint) :
    (∃ err, ((syncPruningPointsAndPruningPointAnticone w fuel proofPruningPoint).run tr).1 =
        Outcome.returned (some err) ∧
      err.shouldBan = true ∧
      (err = protocolerrors.Errorf true
          "got `done` message before receiving the pruning point" ∨
        err = protocolerrors.Errorf true
          "first block with trusted data is not the pruning point")) ∧
    ((syncPruningPointsAndPruningPointAnticone w fuel proofPruningPoint).run tr).2 =
      Event.Enqueue OutMsg.RequestPruningPointAndItsAnticone :: (e1 ++ [Event.Dequeue]) ∧
    ∀ block validateUTXO,
      Event.StagingValidateAndInsertBlockWithTrustedData block validateUTXO ∉
        ((syncPruningPointsAndPruningPointAnticone w fuel proofPruningPoint).run tr).2 := by
  have hA := (validateAndInsertPruningPoints_emitsOnly w proofPruningPoint).events
    (tr ++ [Event.Enqueue OutMsg.RequestPruningPointAndItsAnticone])
  rw [hPruningPoints] at hA
  have hNo : ∀ block validateUTXO,
      Event.StagingValidateAndInsertBlockWithTrustedData block validateUTXO ∉
        Event.Enqueue OutMsg.RequestPruningPointAndItsAnticone :: (e1 ++ [Event.Dequeue]) := by
    intro block validateUTXO hm
    simp only [List.mem_cons, List.mem_append, List.mem_singleton, List.not_mem_nil,
      or_false] at hm
    rcases hm with h | h | h
    · exact absurd h (by simp)
    · exact absurd (hA _ h) (by simp [pruningPointsEvent])
    · exact absurd h (by simp)
  rcases hFirst with h | ⟨b, h, hb⟩
  · have hrun : (syncPruningPointsAndPruningPointAnticone w fuel proofPruningPoint).run tr =
        (Outcome.returned (some (protocolerrors.Errorf true
          "got `done` message before receiving the pruning point")),
         Event.Enqueue OutMsg.RequestPruningPointAndItsAnticone ::
          (e1 ++ [Event.Dequeue])) := by
      unfold syncPruningPointsAndPruningPointAnticone
      simp only [Flow.run_bind, Flow.bind_call, hEnqueue,
        Flow.bind_returned _ _ _ _ _ hPruningPoints,
        Flow.bind_returned _ _ _ _ _ (receiveBlockWithTrustedData_run w _),
        h, Flow.run_pure, List.append_nil]
    rw [hrun]
    exact ⟨⟨_, rfl, rfl, Or.inl rfl⟩, rfl, hNo⟩
  · have hrun : (syncPruningPointsAndPruningPointAnticone w fuel proofPruningPoint).run tr =
        (Outcome.returned (some (protocolerrors.Errorf true
          "first block with trusted data is not the pruning point")),
         Event.Enqueue OutMsg.RequestPruningPointAndItsAnticone ::
          (e1 ++ [Event.Dequeue])) := by
      unfold syncPruningPointsAndPruningPointAnticone
      simp only [Flow.run_bind, Flow.bind_call, hEnqueue,
        Flow.bind_returned _ _ _ _ _ hPruningPoints,
        Flow.bind_returned _ _ _ _ _ (receiveBlockWithTrustedData_run w _),
        h, hb, ne_eq, not_false_eq_true, if_true, Flow.run_pure, List.append_nil]
    rw [hrun]
    exact ⟨⟨_, rfl, rfl, Or.inr rfl⟩, rfl, hNo⟩

/-- Witness of C9: the pruning points 5 and 7 are accepted and the peer then ends the
trusted-data stream at once. -/
theorem syncPruningPointsAndPruningPointAnticone_firstBlock_witness :
    doneFirstWorld.Enqueue [] OutMsg.RequestPruningPointAndItsAnticone = none ∧
    (validateAndInsertPruningPoints doneFirstWorld 7).run
      ([] ++ [Event.Enqueue OutMsg.RequestPruningPointAndItsAnticone]) =
        (Outcome.returned none,
          [Event.PruningPoint, Event.Dequeue,
            Event.ArePruningPointsViolatingFinality [header5, header7],
            Event.StagingImportPruningPoints [header5, header7]]) ∧
    ((syncPruningPointsAndPruningPointAnticone doneFirstWorld 3 7).run []).1 =
      Outcome.returned (some (protocolerrors.Errorf true
        "got `done` message before receiving the pruning point")) ∧
    ((∃ err, ((syncPruningPointsAndPruningPointAnticone doneFirstWorld 3 7).run []).1 =
        Outcome.returned (some err) ∧
      err.shouldBan = true ∧
      (err = protocolerrors.Errorf true
          "got `done` message before receiving the pruning point" ∨
        err = protocolerrors.Errorf true
          "first block with trusted data is not the pruning point")) ∧
    ((syncPruningPointsAndPruningPointAnticone doneFirstWorld 3 7).run []).2 =
      Event.Enqueue OutMsg.RequestPruningPointAndItsAnticone ::
        ([Event.PruningPoint, Event.Dequeue,
            Event.ArePruningPointsViolatingFinality [header5, header7],
            Event.StagingImportPruningPoints [header5, header7]] ++ [Event.Dequeue]) ∧
    ∀ block validateUTXO,
      Event.StagingValidateAndInsertBlockWithTrustedData block validateUTXO ∉
        ((syncPruningPointsAndPruningPointAnticone doneFirstWorld 3 7).run []).2) :=
  ⟨rfl, rfl, rfl,
    syncPruningPointsAndPruningPointAnticone_firstBlock doneFirstWorld 3 7 []
      [Event.PruningPoint, Event.Dequeue,
        Event.ArePruningPointsViolatingFinality [header5, header7],
        Event.StagingImportPruningPoints [header5, header7]]
      rfl rfl (Or.inl rfl)⟩

/-! ## C10: the triggering block -/

theorem headersPhaseEvent_not_utxo (ev : Event) (h : headersPhaseEvent ev = true) :
    utxoPhaseEvent ev = false := by
  cases ev with
  | Enqueue m =>
    cases m <;> simp_all [headersPhaseEvent, proofPhaseEvent, anticonePhaseEvent,
      pruningPointsEvent, trustedDataEvent, utxoPhaseEvent]
  | _ =>
    simp_all [headersPhaseEvent, proofPhaseEvent, anticonePhaseEvent,
      pruningPointsEvent, trustedDataEvent, utxoPhaseEvent]

/-- C10: in a run of downloadHeadersAndPruningUTXOSet, (1) if the proof phase, the
anticone phase and the download of the future headers succeed (so the proof pruning
point is not the genesis hash) and staging then reports the triggering block with
Exists = false, the function returns the banning protocol error "the triggering IBD
block was not sent", and neither the timestamp validation nor any call of the UTXO-set
sync is made; (2) every call of the UTXO-set sync comes after a call
GetBlockInfo(highHash) on staging that reported Exists = true, with no call of the
UTXO-set sync before it. -/
theorem downloadHeadersAndPruningUTXOSet_triggeringBlock (w : World) (fuel : Nat)
    (highHash : DomainHash) (tr : List Event) :
    (∀ p e1 e2 info,
      (syncAndValidatePruningPointProof w).run tr = (Outcome.returned (Except.ok p), e1) →
      (syncPruningPointsAndPruningPointAnticone w fuel p).run (tr ++ e1) =
        (Outcome.returned none, e2) →
      p ≠ w.GenesisHash →
      w.syncPruningPointFutureHeaders (tr ++ e1 ++ e2) ConsensusRef.staging p highHash =
        none →
      w.StagingGetBlockInfo
        (tr ++ e1 ++ e2 ++ [Event.syncPruningPointFutureHeaders ConsensusRef.staging p highHash])
        highHash = Except.ok info →
      info.Exists = false →
      ((downloadHeadersAndPruningUTXOSet w fuel highHash).run tr).1 =
        Outcome.returned (some (protocolerrors.Errorf true
          "the triggering IBD block was not sent")) ∧
      (protocolerrors.Errorf true "the triggering IBD block was not sent").shouldBan = true ∧
      Event.validatePruningPointFutureHeaderTimestamps ∉
        ((downloadHeadersAndPruningUTXOSet w fuel highHash).run tr).2 ∧
      ∀ ev ∈ ((downloadHeadersAndPruningUTXOSet w fuel highHash).run tr).2,
        utxoPhaseEvent ev = false) ∧
    (∀ ev ∈ ((downloadHeadersAndPruningUTXOSet w fuel highHash).run tr).2,
      utxoPhaseEvent ev = true →
      ∃ pre post info,
        ((downloadHeadersAndPruningUTXOSet w fuel highHash).run tr).2 =
          pre ++ Event.StagingGetBlockInfo highHash :: post ∧
        (∀ e ∈ pre, utxoPhaseEvent e = false) ∧
        w.StagingGetBlockInfo (tr ++ pre) highHash = Except.ok info ∧
        info.Exists = true ∧
        ev ∈ post) := by
  constructor
  · intro p e1 e2 info hProof hAnticone hGenesis hHeaders hInfo hExists
    have hA := (syncAndValidatePruningPointProof_emitsOnly w).events tr
    rw [hProof] at hA
    have hB := (syncPruningPointsAndPruningPointAnticone_emitsOnly w fuel p).events (tr ++ e1)
    rw [hAnticone] at hB
    have hrun : (downloadHeadersAndPruningUTXOSet w fuel highHash).run tr =
        (Outcome.returned (some (protocolerrors.Errorf true
          "the triggering IBD block was not sent")),
         e1 ++ (e2 ++ [Event.syncPruningPointFutureHeaders ConsensusRef.staging p highHash,
           Event.StagingGetBlockInfo highHash])) := by
      unfold downloadHeadersAndPruningUTXOSet
      simp only [Flow.run_bind, Flow.bind_call, Flow.bind_returned _ _ _ _ _ hProof,
        Flow.bind_returned _ _ _ _ _ hAnticone, hGenesis, if_false, hHeaders, hInfo,
        hExists, Bool.not_false, if_true, Flow.run_pure, List.append_nil]
    rw [hrun]
    have hAll : ∀ ev ∈ e1 ++ (e2 ++
        [Event.syncPruningPointFutureHeaders ConsensusRef.staging p highHash,
          Event.StagingGetBlockInfo highHash]),
        headersPhaseEvent ev = true ∧ ev ≠ Event.validatePruningPointFutureHeaderTimestamps := by
      intro ev hev
      simp only [List.mem_append, List.mem_cons, List.mem_singleton, List.not_mem_nil,
        or_false] at hev
      rcases hev with h | h | h | h
      · exact ⟨proofPhaseEvent_headers ev (hA ev h), fun hc => by
          have := hA ev h
          rw [hc] at this
          exact absurd this (by decide)⟩
      · exact ⟨anticonePhaseEvent_headers ev (hB ev h), fun hc => by
          have := hB ev h
          rw [hc] at this
          exact absurd this (by decide)⟩
      · subst h; exact ⟨rfl, by simp⟩
      · subst h; exact ⟨rfl, by simp⟩
    refine ⟨rfl, rfl, fun hm => (hAll _ hm).2 rfl, fun ev hev => ?_⟩
    exact headersPhaseEvent_not_utxo ev (hAll ev hev).1
  · intro ev hev hUtxo
    rcases downloadHeadersAndPruningUTXOSet_cases w fuel highHash tr with h | h
    · have h1 := headersPhaseEvent_not_utxo ev (h ev hev)
      rw [hUtxo] at h1
      exact absurd h1 (by decide)
    · obtain ⟨pre, p, info, hpre, hInfo, hExists, he⟩ := h
      refine ⟨pre, _, info, he, fun e hm => headersPhaseEvent_not_utxo e (hpre e hm), hInfo,
        hExists, ?_⟩
      rw [he] at hev
      simp only [List.mem_append, List.mem_cons] at hev
      rcases hev with h | h | h | h
      · have h1 := headersPhaseEvent_not_utxo ev (hpre ev h)
        rw [hUtxo] at h1
        exact absurd h1 (by decide)
      · subst h
        exact absurd hUtxo (by simp [utxoPhaseEvent])
      · exact List.mem_cons.2 (Or.inl h)
      · exact List.mem_cons.2 (Or.inr h)

/-- Witness of C10: in the session of `missingBlockWorld` the three phases succeed and
staging reports the block 99 with Exists = false; in the honest session the UTXO-set sync
starts after staging reported the block 99 with Exists = true. -/
theorem downloadHeadersAndPruningUTXOSet_triggeringBlock_witness :
    (((downloadHeadersAndPruningUTXOSet missingBlockWorld 2 99).run []).1 =
        Outcome.returned (some (protocolerrors.Errorf true
          "the triggering IBD block was not sent")) ∧
      (protocolerrors.Errorf true "the triggering IBD block was not sent").shouldBan = true ∧
      Event.validatePruningPointFutureHeaderTimestamps ∉
        ((downloadHeadersAndPruningUTXOSet missingBlockWorld 2 99).run []).2 ∧
      ∀ ev ∈ ((downloadHeadersAndPruningUTXOSet missingBlockWorld 2 99).run []).2,
        utxoPhaseEvent ev = false) ∧
    Event.StagingIsValidPruningPoint 7 ∈
      ((downloadHeadersAndPruningUTXOSet (scriptedWorld honestScript) 2 99).run []).2 ∧
    (∃ pre post info,
      ((downloadHeadersAndPruningUTXOSet (scriptedWorld honestScript) 2 99).run []).2 =
        pre ++ Event.StagingGetBlockInfo 99 :: post ∧
      (∀ e ∈ pre, utxoPhaseEvent e = false) ∧
      (scriptedWorld honestScript).StagingGetBlockInfo ([] ++ pre) 99 = Except.ok info ∧
      info.Exists = true ∧
      Event.StagingIsValidPruningPoint 7 ∈ post) :=
  ⟨(downloadHeadersAndPruningUTXOSet_triggeringBlock missingBlockWorld 2 99 []).1 7
      honestProofTrace honestAnticoneTrace ⟨false, 0, 0⟩ rfl rfl (by decide) rfl rfl rfl,
    by decide,
    (downloadHeadersAndPruningUTXOSet_triggeringBlock (scriptedWorld honestScript) 2 99 []).2
      (Event.StagingIsValidPruningPoint 7) (by decide) rfl⟩

/-! ## C11: the genesis guard -/

/-- C11: in a run of downloadHeadersAndPruningUTXOSet, if the proof phase yields a
proofPruningPoint equal to the configured genesis hash and the pruning-points and
anticone phase returns without error, the function returns the banning protocol error
"the genesis pruning point violates finality"; its calls are those of the two phases,
so the future headers are not requested and the pruning-point UTXO set is not
requested. -/
theorem downloadHeadersAndPruningUTXOSet_genesisGuard (w : World) (fuel : Nat)
    (highHash : DomainHash) (tr : List Event) (p : DomainHash) (e1 e2 : List Event)
    (hProof : (syncAndValidatePruningPointProof w).run tr =
      (Outcome.returned (Except.ok p), e1))
    (hGenesis : p = w.GenesisHash)
    (hAnticone : (syncPruningPointsAndPruningPointAnticone w fuel p).run (tr ++ e1) =
      (Outcome.returned none, e2)) :
    ((downloadHeadersAndPruningUTXOSet w fuel highHash).run tr).1 =
      Outcome.returned (some (protocolerrors.Errorf true
        "the genesis pruning point violates finality")) ∧
    (protocolerrors.Errorf true "the genesis pruning point violates finality").shouldBan
      = true ∧
    ((downloadHeadersAndPruningUTXOSet w fuel highHash).run tr).2 = e1 ++ e2 ∧
    (∀ consensus q h, Event.syncPruningPointFutureHeaders consensus q h ∉
      ((downloadHeadersAndPruningUTXOSet w fuel highHash).run tr).2) ∧
    (∀ q, Event.Enqueue (OutMsg.RequestPruningPointUTXOSet q) ∉
      ((downloadHeadersAndPruningUTXOSet w fuel highHash).run tr).2) ∧
    (∀ ev ∈ ((downloadHeadersAndPruningUTXOSet w fuel highHash).run tr).2,
      utxoPhaseEvent ev = false) := by
  have hA := (syncAndValidatePruningPointProof_emitsOnly w).events tr
  rw [hProof] at hA
  have hB := (syncPruningPointsAndPruningPointAnticone_emitsOnly w fuel p).events (tr ++ e1)
  rw [hAnticone] at hB
  have hrun : (downloadHeadersAndPruningUTXOSet w fuel highHash).run tr =
      (Outcome.returned (some (protocolerrors.Errorf true
        "the genesis pruning point violates finality")), e1 ++ e2) := by
    unfold downloadHeadersAndPruningUTXOSet
    simp only [Flow.run_bind, Flow.bind_returned _ _ _ _ _ hProof,
      Flow.bind_returned _ _ _ _ _ hAnticone]
    rw [if_pos hGenesis]
    simp only [Flow.run_pure, List.append_nil]
  have hAll : ∀ ev ∈ e1 ++ e2, proofPhaseEvent ev = true ∨ anticonePhaseEvent ev = true := by
    intro ev hev
    rcases List.mem_append.1 hev with h | h
    · exact Or.inl (hA ev h)
    · exact Or.inr (hB ev h)
  rw [hrun]
  refine ⟨rfl, rfl, rfl, ?_, ?_, ?_⟩
  · intro consensus q h hm
    rcases hAll _ hm with h1 | h1
    · exact absurd h1 (by simp [proofPhaseEvent])
    · exact absurd h1 (by simp [anticonePhaseEvent, pruningPointsEvent, trustedDataEvent])
  · intro q hm
    rcases hAll _ hm with h1 | h1
    · exact absurd h1 (by simp [proofPhaseEvent])
    · exact absurd h1 (by simp [anticonePhaseEvent, pruningPointsEvent, trustedDataEvent])
  · intro ev hm
    rcases hAll _ hm with h1 | h1
    · exact headersPhaseEvent_not_utxo ev (proofPhaseEvent_headers ev h1)
    · exact headersPhaseEvent_not_utxo ev (anticonePhaseEvent_headers ev h1)

/-- Witness of C11: the honest session, with the genesis hash set to the pruning point 7
that the proof claims. -/
theorem downloadHeadersAndPruningUTXOSet_genesisGuard_witness :
    (syncAndValidatePruningPointProof genesisWorld).run [] =
      (Outcome.returned (Except.ok 7), honestProofTrace) ∧
    (7 : DomainHash) = genesisWorld.GenesisHash ∧
    (syncPruningPointsAndPruningPointAnticone genesisWorld 2 7).run
      ([] ++ honestProofTrace) = (Outcome.returned none, honestAnticoneTrace) ∧
    (((downloadHeadersAndPruningUTXOSet genesisWorld 2 99).run []).1 =
      Outcome.returned (some (protocolerrors.Errorf true
        "the genesis pruning point violates finality")) ∧
    (protocolerrors.Errorf true "the genesis pruning point violates finality").shouldBan
      = true ∧
    ((downloadHeadersAndPruningUTXOSet genesisWorld 2 99).run []).2 =
      honestProofTrace ++ honestAnticoneTrace ∧
    (∀ consensus q h, Event.syncPruningPointFutureHeaders consensus q h ∉
      ((downloadHeadersAndPruningUTXOSet genesisWorld 2 99).run []).2) ∧
    (∀ q, Event.Enqueue (OutMsg.RequestPruningPointUTXOSet q) ∉
      ((downloadHeadersAndPruningUTXOSet genesisWorld 2 99).run []).2) ∧
    (∀ ev ∈ ((downloadHeadersAndPruningUTXOSet genesisWorld 2 99).run []).2,
      utxoPhaseEvent ev = false)) :=
  ⟨rfl, rfl, rfl,
    downloadHeadersAndPruningUTXOSet_genesisGuard genesisWorld 2 99 [] 7 honestProofTrace
      honestAnticoneTrace rfl rfl rfl⟩

/-! ## C12: the classification of a failed proof validation -/

/-- The run of syncAndValidatePruningPointProof once the request was enqueued and a
PruningPointProof message was received. -/
theorem syncAndValidatePruningPointProof_run (w : World) (tr : List Event)
    (m : MsgPruningPointProof)
    (hEnqueue : w.Enqueue tr OutMsg.RequestPruningPointProof = none)
    (hFrame : w.Dequeue (tr ++ [Event.Enqueue OutMsg.RequestPruningPointProof]) =
      Except.ok (Message.PruningPointProof m)) :
    (syncAndValidatePruningPointProof w).run tr =
      match w.ValidatePruningPointProof
          (tr ++ [Event.Enqueue OutMsg.RequestPruningPointProof, Event.Dequeue])
          (w.MsgPruningPointProofToDomainPruningPointProof m) with
      | some e =>
        (Outcome.returned (Except.error
          (if e.isRuleError = true then
            protocolerrors.Wrapf true e "pruning point proof validation failed"
          else e)),
         [Event.Enqueue OutMsg.RequestPruningPointProof, Event.Dequeue,
          Event.ValidatePruningPointProof
            (w.MsgPruningPointProofToDomainPruningPointProof m)])
      | none =>
        match w.StagingApplyPruningPointProof
            (tr ++ [Event.Enqueue OutMsg.RequestPruningPointProof, Event.Dequeue,
              Event.ValidatePruningPointProof
                (w.MsgPruningPointProofToDomainPruningPointProof m)])
            (w.MsgPruningPointProofToDomainPruningPointProof m) with
        | some e =>
          (Outcome.returned (Except.error e),
           [Event.Enqueue OutMsg.RequestPruningPointProof, Event.Dequeue,
            Event.ValidatePruningPointProof
              (w.MsgPruningPointProofToDomainPruningPointProof m),
            Event.StagingApplyPruningPointProof
              (w.MsgPruningPointProofToDomainPruningPointProof m)])
        | none =>
          (match (w.MsgPruningPointProofToDomainPruningPointProof m).Headers.head? with
            | none => Outcome.panicked "index out of range [0] with length 0"
            | some level0 =>
              match level0.getLast? with
              | none => Outcome.panicked "index out of range [-1]"
              | some header => Outcome.returned (Except.ok (w.HeaderHash header)),
           [Event.Enqueue OutMsg.RequestPruningPointProof, Event.Dequeue,
            Event.ValidatePruningPointProof
              (w.MsgPruningPointProofToDomainPruningPointProof m),
            Event.StagingApplyPruningPointProof
              (w.MsgPruningPointProofToDomainPruningPointProof m)]) := by
  unfold syncAndValidatePruningPointProof
  simp only [Flow.run_bind, Flow.bind_call, hEnqueue, hFrame, List.append_assoc,
    List.singleton_append]
  rcases hv : w.ValidatePruningPointProof
      (tr ++ [Event.Enqueue OutMsg.RequestPruningPointProof, Event.Dequeue])
      (w.MsgPruningPointProofToDomainPruningPointProof m) with _ | e
  · simp only [Flow.run_bind, Flow.bind_call, List.append_assoc, List.cons_append,
      List.nil_append]
    rcases ha : w.StagingApplyPruningPointProof
        (tr ++ [Event.Enqueue OutMsg.RequestPruningPointProof, Event.Dequeue,
          Event.ValidatePruningPointProof
            (w.MsgPruningPointProofToDomainPruningPointProof m)])
        (w.MsgPruningPointProofToDomainPruningPointProof m) with _ | e
    · rcases (w.MsgPruningPointProofToDomainPruningPointProof m).Headers.head?
        with _ | level0
      · rfl
      · rcases hl : level0.getLast? with _ | header
        · simp only [hl]; rfl
        · simp only [hl]; rfl
    · rfl
  · by_cases hr : e.isRuleError = true
    · simp [hr]
    · simp [hr]

/-- C12: for every received PruningPointProof, (1) if ValidatePruningPointProof fails with
an error that is a rule error, syncAndValidatePruningPointProof returns a banning
protocol error wrapping that error; (2) if it fails with any other error, that error is
returned unchanged; in both cases ApplyPruningPointProof is not called on staging;
(3) when validation and application both succeed, the function returns the hash of the
last header of level 0 of the proof. -/
theorem syncAndValidatePruningPointProof_classification (w : World) (tr : List Event)
    (m : MsgPruningPointProof)
    (hEnqueue : w.Enqueue tr OutMsg.RequestPruningPointProof = none)
    (hFrame : w.Dequeue (tr ++ [Event.Enqueue OutMsg.RequestPruningPointProof]) =
      Except.ok (Message.PruningPointProof m)) :
    (∀ e,
      w.ValidatePruningPointProof
        (tr ++ [Event.Enqueue OutMsg.RequestPruningPointProof, Event.Dequeue])
        (w.MsgPruningPointProofToDomainPruningPointProof m) = some e →
      e.isRuleError = true →
      ((syncAndValidatePruningPointProof w).run tr).1 =
        Outcome.returned (Except.error
          (Err.protocolWrap true e "pruning point proof validation failed")) ∧
      (Err.protocolWrap true e "pruning point proof validation failed").shouldBan = true ∧
      ∀ proof, Event.StagingApplyPruningPointProof proof ∉
        ((syncAndValidatePruningPointProof w).run tr).2) ∧
    (∀ e,
      w.ValidatePruningPointProof
        (tr ++ [Event.Enqueue OutMsg.RequestPruningPointProof, Event.Dequeue])
        (w.MsgPruningPointProofToDomainPruningPointProof m) = some e →
      e.isRuleError = false →
      ((syncAndValidatePruningPointProof w).run tr).1 = Outcome.returned (Except.error e) ∧
      ∀ proof, Event.StagingApplyPruningPointProof proof ∉
        ((syncAndValidatePruningPointProof w).run tr).2) ∧
    (∀ level0 header,
      w.ValidatePruningPointProof
        (tr ++ [Event.Enqueue OutMsg.RequestPruningPointProof, Event.Dequeue])
        (w.MsgPruningPointProofToDomainPruningPointProof m) = none →
      w.StagingApplyPruningPointProof
        (tr ++ [Event.Enqueue OutMsg.RequestPruningPointProof, Event.Dequeue,
          Event.ValidatePruningPointProof (w.MsgPruningPointProofToDomainPruningPointProof m)])
        (w.MsgPruningPointProofToDomainPruningPointProof m) = none →
      (w.MsgPruningPointProofToDomainPruningPointProof m).Headers.head? = some level0 →
      level0.getLast? = some header →
      ((syncAndValidatePruningPointProof w).run tr).1 =
        Outcome.returned (Except.ok (w.HeaderHash header))) := by
  have hrun := syncAndValidatePruningPointProof_run w tr m hEnqueue hFrame
  refine ⟨?_, ?_, ?_⟩
  · intro e hValidate hRule
    rw [hrun, hValidate]
    simp only [hRule, if_true]
    refine ⟨rfl, rfl, ?_⟩
    intro proof
    simp
  · intro e hValidate hRule
    rw [hrun, hValidate]
    exact ⟨by simp [hRule], fun proof => by simp⟩
  · intro level0 header hValidate hApply hLevel0 hLast
    rw [hrun, hValidate]
    simp only [hApply, hLevel0, hLast]

/-- Witness of C12: the honest proof is rejected with the rule error 5, rejected with the
plain error 3, and accepted; its level 0 ends in the header 7. -/
theorem syncAndValidatePruningPointProof_classification_witness :
    (rejectedProofWorld (Err.rule 5)).Enqueue [] OutMsg.RequestPruningPointProof = none ∧
    (rejectedProofWorld (Err.rule 5)).Dequeue
      ([] ++ [Event.Enqueue OutMsg.RequestPruningPointProof]) =
      Except.ok (Message.PruningPointProof honestProofMessage) ∧
    (Err.rule 5).isRuleError = true ∧ (Err.infra 3).isRuleError = false ∧
    (((syncAndValidatePruningPointProof (rejectedProofWorld (Err.rule 5))).run []).1 =
        Outcome.returned (Except.error
          (Err.protocolWrap true (Err.rule 5) "pruning point proof validation failed")) ∧
      (Err.protocolWrap true (Err.rule 5) "pruning point proof validation failed").shouldBan
        = true ∧
      ∀ proof, Event.StagingApplyPruningPointProof proof ∉
        ((syncAndValidatePruningPointProof (rejectedProofWorld (Err.rule 5))).run []).2) ∧
    (((syncAndValidatePruningPointProof (rejectedProofWorld (Err.infra 3))).run []).1 =
        Outcome.returned (Except.error (Err.infra 3)) ∧
      ∀ proof, Event.StagingApplyPruningPointProof proof ∉
        ((syncAndValidatePruningPointProof (rejectedProofWorld (Err.infra 3))).run []).2) ∧
    ((syncAndValidatePruningPointProof (scriptedWorld honestScript)).run []).1 =
      Outcome.returned (Except.ok ((scriptedWorld honestScript).HeaderHash header7)) :=
  ⟨rfl, rfl, rfl, rfl,
    (syncAndValidatePruningPointProof_classification (rejectedProofWorld (Err.rule 5)) []
      honestProofMessage rfl rfl).1 (Err.rule 5) rfl rfl,
    (syncAndValidatePruningPointProof_classification (rejectedProofWorld (Err.infra 3)) []
      honestProofMessage rfl rfl).2.1 (Err.infra 3) rfl rfl,
    (syncAndValidatePruningPointProof_classification (scriptedWorld honestScript) []
      honestProofMessage rfl rfl).2.2 [header5, header7] header7 rfl rfl rfl rfl⟩

/-- A proof whose level 0 is empty has no last header of level 0: when every
collaborator accepts it, the index expression of line 108 panics. -/
theorem syncAndValidatePruningPointProof_emptyLevel0 :
    (syncAndValidatePruningPointProof emptyProofWorld).run [] =
      (Outcome.panicked "index out of range [-1]",
        [Event.Enqueue OutMsg.RequestPruningPointProof, Event.Dequeue,
          Event.ValidatePruningPointProof ⟨[[]]⟩,
          Event.StagingApplyPruningPointProof ⟨[[]]⟩]) := rfl

/-! ## C13 and C14: the UTXO-set sync -/

/-- The run of the body of fetchMissingUTXOSet, call by call. -/
theorem fetchMissingUTXOSetBody_run (w : World) (consensus : ConsensusRef)
    (pruningPointHash : DomainHash) (tr : List Event) :
    (fetchMissingUTXOSetBody w consensus pruningPointHash).run tr =
      match w.Enqueue tr (OutMsg.RequestPruningPointUTXOSet pruningPointHash) with
      | some e =>
        (Outcome.returned (false, some e),
         [Event.Enqueue (OutMsg.RequestPruningPointUTXOSet pruningPointHash)])
      | none =>
        match w.receiveAndInsertPruningPointUTXOSet
            (tr ++ [Event.Enqueue (OutMsg.RequestPruningPointUTXOSet pruningPointHash)])
            consensus pruningPointHash with
        | (_, some e) =>
          (Outcome.returned (false, some e),
           [Event.Enqueue (OutMsg.RequestPruningPointUTXOSet pruningPointHash),
            Event.receiveAndInsertPruningPointUTXOSet consensus pruningPointHash])
        | (false, none) =>
          (Outcome.returned (false, none),
           [Event.Enqueue (OutMsg.RequestPruningPointUTXOSet pruningPointHash),
            Event.receiveAndInsertPruningPointUTXOSet consensus pruningPointHash])
        | (true, none) =>
          match w.StagingValidateAndInsertImportedPruningPoint
              (tr ++ [Event.Enqueue (OutMsg.RequestPruningPointUTXOSet pruningPointHash),
                Event.receiveAndInsertPruningPointUTXOSet consensus pruningPointHash])
              pruningPointHash with
          | some e =>
            (Outcome.returned
              (if e.is ruleerrors.ErrSuggestedPruningViolatesFinality = true then
                (false, none)
              else
                (false, some (protocolerrors.ConvertToBanningProtocolErrorIfRuleError e
                  "error with pruning point UTXO set"))),
             [Event.Enqueue (OutMsg.RequestPruningPointUTXOSet pruningPointHash),
              Event.receiveAndInsertPruningPointUTXOSet consensus pruningPointHash,
              Event.StagingValidateAndInsertImportedPruningPoint pruningPointHash])
          | none =>
            (Outcome.returned
              (match w.OnPruningPointUTXOSetOverride
                  (tr ++ [Event.Enqueue (OutMsg.RequestPruningPointUTXOSet pruningPointHash),
                    Event.receiveAndInsertPruningPointUTXOSet consensus pruningPointHash,
                    Event.StagingValidateAndInsertImportedPruningPoint pruningPointHash]) with
                | some e => (false, some e)
                | none => (true, none)),
             [Event.Enqueue (OutMsg.RequestPruningPointUTXOSet pruningPointHash),
              Event.receiveAndInsertPruningPointUTXOSet consensus pruningPointHash,
              Event.StagingValidateAndInsertImportedPruningPoint pruningPointHash,
              Event.OnPruningPointUTXOSetOverride]) := by
  unfold fetchMissingUTXOSetBody
  simp only [Flow.run_bind, Flow.bind_call]
  rcases h1 : w.Enqueue tr (OutMsg.RequestPruningPointUTXOSet pruningPointHash) with _ | e
  · simp only [Flow.run_bind, Flow.bind_call, List.append_assoc, List.singleton_append]
    rcases h2 : w.receiveAndInsertPruningPointUTXOSet
        (tr ++ [Event.Enqueue (OutMsg.RequestPruningPointUTXOSet pruningPointHash)])
        consensus pruningPointHash with ⟨receivedAll, _ | e⟩
    · cases receivedAll
      · rfl
      · simp only [Flow.run_bind, Flow.bind_call, List.append_assoc, List.cons_append,
          List.nil_append]
        rcases h3 : w.StagingValidateAndInsertImportedPruningPoint
            (tr ++ [Event.Enqueue (OutMsg.RequestPruningPointUTXOSet pruningPointHash),
              Event.receiveAndInsertPruningPointUTXOSet consensus pruningPointHash])
            pruningPointHash with _ | e
        · simp only [Flow.run_bind, Flow.bind_call, List.append_assoc, List.cons_append,
            List.nil_append]
          rcases h4 : w.OnPruningPointUTXOSetOverride
              (tr ++ [Event.Enqueue (OutMsg.RequestPruningPointUTXOSet pruningPointHash),
                Event.receiveAndInsertPruningPointUTXOSet consensus pruningPointHash,
                Event.StagingValidateAndInsertImportedPruningPoint pruningPointHash])
            with _ | e <;> simp only [h4] <;> rfl
        · by_cases hi : e.is ruleerrors.ErrSuggestedPruningViolatesFinality = true
          · simp [hi]
          · simp [hi]
    · cases receivedAll <;> rfl
  · rfl

/-- C13, as the code has it: in a run of fetchMissingUTXOSet whose request was enqueued,
(1) if the whole UTXO stream was received and ValidateAndInsertImportedPruningPoint
fails with an error that is or wraps ErrSuggestedPruningViolatesFinality, the override
hook is not called, and the function returns (false, nil) when the deferred
ClearImportedPruningPointData succeeds and panics when it fails; (2) if the stream was
reported incomplete, ValidateAndInsertImportedPruningPoint is not called, and the
function returns (false, nil) when the deferred ClearImportedPruningPointData
succeeds. -/
theorem fetchMissingUTXOSet_finalityConflict (w : World) (consensus : ConsensusRef)
    (pruningPointHash : DomainHash) (tr : List Event)
    (hEnqueue : w.Enqueue tr (OutMsg.RequestPruningPointUTXOSet pruningPointHash) = none) :
    (∀ e,
      w.receiveAndInsertPruningPointUTXOSet
        (tr ++ [Event.Enqueue (OutMsg.RequestPruningPointUTXOSet pruningPointHash)])
        consensus pruningPointHash = (true, none) →
      w.StagingValidateAndInsertImportedPruningPoint
        (tr ++ [Event.Enqueue (OutMsg.RequestPruningPointUTXOSet pruningPointHash),
          Event.receiveAndInsertPruningPointUTXOSet consensus pruningPointHash])
        pruningPointHash = some e →
      e.is ruleerrors.ErrSuggestedPruningViolatesFinality = true →
      ((fetchMissingUTXOSet w consensus pruningPointHash).run tr).2 =
        [Event.Enqueue (OutMsg.RequestPruningPointUTXOSet pruningPointHash),
          Event.receiveAndInsertPruningPointUTXOSet consensus pruningPointHash,
          Event.StagingValidateAndInsertImportedPruningPoint pruningPointHash,
          Event.StagingClearImportedPruningPointData] ∧
      Event.OnPruningPointUTXOSetOverride ∉
        ((fetchMissingUTXOSet w consensus pruningPointHash).run tr).2 ∧
      ((fetchMissingUTXOSet w consensus pruningPointHash).run tr).1 =
        match w.StagingClearImportedPruningPointData
          (tr ++ [Event.Enqueue (OutMsg.RequestPruningPointUTXOSet pruningPointHash),
            Event.receiveAndInsertPruningPointUTXOSet consensus pruningPointHash,
            Event.StagingValidateAndInsertImportedPruningPoint pruningPointHash]) with
        | none => Outcome.returned (false, none)
        | some _ => Outcome.panicked "failed to clear imported pruning point data: %s") ∧
    (w.receiveAndInsertPruningPointUTXOSet
        (tr ++ [Event.Enqueue (OutMsg.RequestPruningPointUTXOSet pruningPointHash)])
        consensus pruningPointHash = (false, none) →
      ((fetchMissingUTXOSet w consensus pruningPointHash).run tr).2 =
        [Event.Enqueue (OutMsg.RequestPruningPointUTXOSet pruningPointHash),
          Event.receiveAndInsertPruningPointUTXOSet consensus pruningPointHash,
          Event.StagingClearImportedPruningPointData] ∧
      (∀ q, Event.StagingValidateAndInsertImportedPruningPoint q ∉
        ((fetchMissingUTXOSet w consensus pruningPointHash).run tr).2) ∧
      ((fetchMissingUTXOSet w consensus pruningPointHash).run tr).1 =
        match w.StagingClearImportedPruningPointData
          (tr ++ [Event.Enqueue (OutMsg.RequestPruningPointUTXOSet pruningPointHash),
            Event.receiveAndInsertPruningPointUTXOSet consensus pruningPointHash]) with
        | none => Outcome.returned (false, none)
        | some _ => Outcome.panicked "failed to clear imported pruning point data: %s") := by
  constructor
  · intro e hReceived hValidate hIs
    have hbody : (fetchMissingUTXOSetBody w consensus pruningPointHash).run tr =
        (Outcome.returned (false, none),
         [Event.Enqueue (OutMsg.RequestPruningPointUTXOSet pruningPointHash),
          Event.receiveAndInsertPruningPointUTXOSet consensus pruningPointHash,
          Event.StagingValidateAndInsertImportedPruningPoint pruningPointHash]) := by
      rw [fetchMissingUTXOSetBody_run]
      simp only [hEnqueue, hReceived, hValidate, hIs, if_true]
    rw [fetchMissingUTXOSet_run, hbody]
    refine ⟨rfl, by simp, ?_⟩
    rcases w.StagingClearImportedPruningPointData
      (tr ++ [Event.Enqueue (OutMsg.RequestPruningPointUTXOSet pruningPointHash),
        Event.receiveAndInsertPruningPointUTXOSet consensus pruningPointHash,
        Event.StagingValidateAndInsertImportedPruningPoint pruningPointHash]) with _ | d <;>
      rfl
  · intro hIncomplete
    have hbody : (fetchMissingUTXOSetBody w consensus pruningPointHash).run tr =
        (Outcome.returned (false, none),
         [Event.Enqueue (OutMsg.RequestPruningPointUTXOSet pruningPointHash),
          Event.receiveAndInsertPruningPointUTXOSet consensus pruningPointHash]) := by
      rw [fetchMissingUTXOSetBody_run]
      simp only [hEnqueue, hIncomplete]
    rw [fetchMissingUTXOSet_run, hbody]
    refine ⟨rfl, fun q => by simp, ?_⟩
    rcases w.StagingClearImportedPruningPointData
      (tr ++ [Event.Enqueue (OutMsg.RequestPruningPointUTXOSet pruningPointHash),
        Event.receiveAndInsertPruningPointUTXOSet consensus pruningPointHash]) with _ | d <;>
      rfl

/-- Witness of C13: a finality conflict on the install of the UTXO set, and an incomplete
stream, both with a successful cleanup. -/
theorem fetchMissingUTXOSet_finalityConflict_witness :
    (finalityConflictWorld none).Enqueue [] (OutMsg.RequestPruningPointUTXOSet 7) = none ∧
    (Err.wrapped ruleerrors.ErrSuggestedPruningViolatesFinality "utxo set").is
      ruleerrors.ErrSuggestedPruningViolatesFinality = true ∧
    (fetchMissingUTXOSet (finalityConflictWorld none) ConsensusRef.staging 7).run [] =
      (Outcome.returned (false, none),
        [Event.Enqueue (OutMsg.RequestPruningPointUTXOSet 7),
          Event.receiveAndInsertPruningPointUTXOSet ConsensusRef.staging 7,
          Event.StagingValidateAndInsertImportedPruningPoint 7,
          Event.StagingClearImportedPruningPointData]) ∧
    Event.OnPruningPointUTXOSetOverride ∉
      ((fetchMissingUTXOSet (finalityConflictWorld none) ConsensusRef.staging 7).run []).2 ∧
    (fetchMissingUTXOSet incompleteStreamWorld ConsensusRef.staging 7).run [] =
      (Outcome.returned (false, none),
        [Event.Enqueue (OutMsg.RequestPruningPointUTXOSet 7),
          Event.receiveAndInsertPruningPointUTXOSet ConsensusRef.staging 7,
          Event.StagingClearImportedPruningPointData]) ∧
    (∀ q, Event.StagingValidateAndInsertImportedPruningPoint q ∉
      ((fetchMissingUTXOSet incompleteStreamWorld ConsensusRef.staging 7).run []).2) :=
  ⟨rfl, rfl, rfl,
    ((fetchMissingUTXOSet_finalityConflict (finalityConflictWorld none) ConsensusRef.staging
      7 [] rfl).1 _ rfl rfl rfl).2.1,
    rfl,
    ((fetchMissingUTXOSet_finalityConflict incompleteStreamWorld ConsensusRef.staging
      7 [] rfl).2 rfl).2.1⟩

/-- C13 as stated fails: the whole UTXO stream is received,
ValidateAndInsertImportedPruningPoint fails with an error that wraps
ErrSuggestedPruningViolatesFinality, the deferred ClearImportedPruningPointData fails,
and fetchMissingUTXOSet panics instead of returning (false, nil). -/
theorem fetchMissingUTXOSet_finalityConflict_clearFails :
    (finalityConflictWorld (some (Err.infra 9))).receiveAndInsertPruningPointUTXOSet
      [Event.Enqueue (OutMsg.RequestPruningPointUTXOSet 7)] ConsensusRef.staging 7 =
      (true, none) ∧
    (finalityConflictWorld (some (Err.infra 9))).StagingValidateAndInsertImportedPruningPoint
      [Event.Enqueue (OutMsg.RequestPruningPointUTXOSet 7),
        Event.receiveAndInsertPruningPointUTXOSet ConsensusRef.staging 7] 7 =
      some (Err.wrapped ruleerrors.ErrSuggestedPruningViolatesFinality "utxo set") ∧
    (Err.wrapped ruleerrors.ErrSuggestedPruningViolatesFinality "utxo set").is
      ruleerrors.ErrSuggestedPruningViolatesFinality = true ∧
    (fetchMissingUTXOSet (finalityConflictWorld (some (Err.infra 9)))
        ConsensusRef.staging 7).run [] =
      (Outcome.panicked "failed to clear imported pruning point data: %s",
        [Event.Enqueue (OutMsg.RequestPruningPointUTXOSet 7),
          Event.receiveAndInsertPruningPointUTXOSet ConsensusRef.staging 7,
          Event.StagingValidateAndInsertImportedPruningPoint 7,
          Event.StagingClearImportedPruningPointData]) ∧
    ((fetchMissingUTXOSet (finalityConflictWorld (some (Err.infra 9)))
        ConsensusRef.staging 7).run []).1 ≠ Outcome.returned (false, none) := by
  refine ⟨rfl, rfl, rfl, rfl, ?_⟩
  show Outcome.panicked "failed to clear imported pruning point data: %s" ≠
    Outcome.returned (false, none)
  simp

/-- C14, as the code has it: in every run of syncPruningPointUTXOSet the override hook is
called at most once; if it is called, IsValidPruningPoint returned true, the request was
enqueued, the UTXO stream was fully received and ValidateAndInsertImportedPruningPoint
succeeded, all before the hook; and the function returns (true, nil) exactly when the
hook was called once and returned no error and the deferred
ClearImportedPruningPointData succeeded. -/
theorem syncPruningPointUTXOSet_overrideHook (w : World) (consensus : ConsensusRef)
    (pruningPoint : DomainHash) (tr : List Event) :
    ((syncPruningPointUTXOSet w consensus pruningPoint).run tr).2.count
      Event.OnPruningPointUTXOSetOverride ≤ 1 ∧
    (Event.OnPruningPointUTXOSetOverride ∈
        ((syncPruningPointUTXOSet w consensus pruningPoint).run tr).2 →
      w.StagingIsValidPruningPoint tr pruningPoint = Except.ok true ∧
      w.Enqueue (tr ++ [Event.StagingIsValidPruningPoint pruningPoint])
        (OutMsg.RequestPruningPointUTXOSet pruningPoint) = none ∧
      w.receiveAndInsertPruningPointUTXOSet
        (tr ++ [Event.StagingIsValidPruningPoint pruningPoint,
          Event.Enqueue (OutMsg.RequestPruningPointUTXOSet pruningPoint)])
        consensus pruningPoint = (true, none) ∧
      w.StagingValidateAndInsertImportedPruningPoint
        (tr ++ [Event.StagingIsValidPruningPoint pruningPoint,
          Event.Enqueue (OutMsg.RequestPruningPointUTXOSet pruningPoint),
          Event.receiveAndInsertPruningPointUTXOSet consensus pruningPoint])
        pruningPoint = none ∧
      ((syncPruningPointUTXOSet w consensus pruningPoint).run tr).2 =
        [Event.StagingIsValidPruningPoint pruningPoint,
          Event.Enqueue (OutMsg.RequestPruningPointUTXOSet pruningPoint),
          Event.receiveAndInsertPruningPointUTXOSet consensus pruningPoint,
          Event.StagingValidateAndInsertImportedPruningPoint pruningPoint,
          Event.OnPruningPointUTXOSetOverride,
          Event.StagingClearImportedPruningPointData]) ∧
    (((syncPruningPointUTXOSet w consensus pruningPoint).run tr).1 =
        Outcome.returned (true, none) ↔
      (((syncPruningPointUTXOSet w consensus pruningPoint).run tr).2.count
          Event.OnPruningPointUTXOSetOverride = 1 ∧
        w.OnPruningPointUTXOSetOverride
          (tr ++ [Event.StagingIsValidPruningPoint pruningPoint,
            Event.Enqueue (OutMsg.RequestPruningPointUTXOSet pruningPoint),
            Event.receiveAndInsertPruningPointUTXOSet consensus pruningPoint,
            Event.StagingValidateAndInsertImportedPruningPoint pruningPoint]) = none ∧
        w.StagingClearImportedPruningPointData
          (tr ++ [Event.StagingIsValidPruningPoint pruningPoint,
            Event.Enqueue (OutMsg.RequestPruningPointUTXOSet pruningPoint),
            Event.receiveAndInsertPruningPointUTXOSet consensus pruningPoint,
            Event.StagingValidateAndInsertImportedPruningPoint pruningPoint,
            Event.OnPruningPointUTXOSetOverride]) = none)) := by
  rw [syncPruningPointUTXOSet_run]
  rcases h0 : w.StagingIsValidPruningPoint tr pruningPoint with err | isValid
  · simp
  · cases isValid
    · simp
    · simp only [fetchMissingUTXOSet_run, fetchMissingUTXOSetBody_run, List.append_assoc,
        List.singleton_append, List.cons_append, List.nil_append]
      rcases h1 : w.Enqueue (tr ++ [Event.StagingIsValidPruningPoint pruningPoint])
          (OutMsg.RequestPruningPointUTXOSet pruningPoint) with _ | e
      · rcases h2 : w.receiveAndInsertPruningPointUTXOSet
            (tr ++ [Event.StagingIsValidPruningPoint pruningPoint,
              Event.Enqueue (OutMsg.RequestPruningPointUTXOSet pruningPoint)])
            consensus pruningPoint with ⟨receivedAll, _ | e⟩
        · cases receivedAll
          · rcases hC : w.StagingClearImportedPruningPointData
                (tr ++ [Event.StagingIsValidPruningPoint pruningPoint,
                  Event.Enqueue (OutMsg.RequestPruningPointUTXOSet pruningPoint),
                  Event.receiveAndInsertPruningPointUTXOSet consensus pruningPoint]) with _ | d <;>
              simp [List.count_cons, hC]
          · rcases h3 : w.StagingValidateAndInsertImportedPruningPoint
                (tr ++ [Event.StagingIsValidPruningPoint pruningPoint,
                  Event.Enqueue (OutMsg.RequestPruningPointUTXOSet pruningPoint),
                  Event.receiveAndInsertPruningPointUTXOSet consensus pruningPoint])
                pruningPoint with _ | e
            · rcases h4 : w.OnPruningPointUTXOSetOverride
                  (tr ++ [Event.StagingIsValidPruningPoint pruningPoint,
                    Event.Enqueue (OutMsg.RequestPruningPointUTXOSet pruningPoint),
                    Event.receiveAndInsertPruningPointUTXOSet consensus pruningPoint,
                    Event.StagingValidateAndInsertImportedPruningPoint pruningPoint])
                with _ | e
              · rcases hC : w.StagingClearImportedPruningPointData
                    (tr ++ [Event.StagingIsValidPruningPoint pruningPoint,
                      Event.Enqueue (OutMsg.RequestPruningPointUTXOSet pruningPoint),
                      Event.receiveAndInsertPruningPointUTXOSet consensus pruningPoint,
                      Event.StagingValidateAndInsertImportedPruningPoint pruningPoint,
                      Event.OnPruningPointUTXOSetOverride]) with _ | d <;>
                  simp [List.count_cons, hC]
              · rcases hC : w.StagingClearImportedPruningPointData
                    (tr ++ [Event.StagingIsValidPruningPoint pruningPoint,
                      Event.Enqueue (OutMsg.RequestPruningPointUTXOSet pruningPoint),
                      Event.receiveAndInsertPruningPointUTXOSet consensus pruningPoint,
                      Event.StagingValidateAndInsertImportedPruningPoint pruningPoint,
                      Event.OnPruningPointUTXOSetOverride]) with _ | d <;>
                  simp [List.count_cons, hC]
            · by_cases hi : e.is ruleerrors.ErrSuggestedPruningViolatesFinality = true
              · rcases hC : w.StagingClearImportedPruningPointData
                    (tr ++ [Event.StagingIsValidPruningPoint pruningPoint,
                      Event.Enqueue (OutMsg.RequestPruningPointUTXOSet pruningPoint),
                      Event.receiveAndInsertPruningPointUTXOSet consensus pruningPoint,
                      Event.StagingValidateAndInsertImportedPruningPoint pruningPoint]) with _ | d <;>
                  simp [List.count_cons, hC, hi]
              · rcases hC : w.StagingClearImportedPruningPointData
                    (tr ++ [Event.StagingIsValidPruningPoint pruningPoint,
                      Event.Enqueue (OutMsg.RequestPruningPointUTXOSet pruningPoint),
                      Event.receiveAndInsertPruningPointUTXOSet consensus pruningPoint,
                      Event.StagingValidateAndInsertImportedPruningPoint pruningPoint]) with _ | d <;>
                  simp [List.count_cons, hC, hi]
        · cases receivedAll
          · rcases hC : w.StagingClearImportedPruningPointData
                (tr ++ [Event.StagingIsValidPruningPoint pruningPoint,
                  Event.Enqueue (OutMsg.RequestPruningPointUTXOSet pruningPoint),
                  Event.receiveAndInsertPruningPointUTXOSet consensus pruningPoint]) with _ | d <;>
              simp [List.count_cons, hC]
          · rcases hC : w.StagingClearImportedPruningPointData
                (tr ++ [Event.StagingIsValidPruningPoint pruningPoint,
                  Event.Enqueue (OutMsg.RequestPruningPointUTXOSet pruningPoint),
                  Event.receiveAndInsertPruningPointUTXOSet consensus pruningPoint]) with _ | d <;>
              simp [List.count_cons, hC]
      · rcases hC : w.StagingClearImportedPruningPointData
            (tr ++ [Event.StagingIsValidPruningPoint pruningPoint,
              Event.Enqueue (OutMsg.RequestPruningPointUTXOSet pruningPoint)]) with _ | d <;>
          simp [List.count_cons, hC]

/-- Witness of C14: every collaborator succeeds; the hook is called once, after the
validation of the imported pruning point, and the sync returns (true, nil). -/
theorem syncPruningPointUTXOSet_overrideHook_witness :
    ((syncPruningPointUTXOSet (scriptedWorld []) ConsensusRef.staging 7).run []).1 =
      Outcome.returned (true, none) ∧
    Event.OnPruningPointUTXOSetOverride ∈
      ((syncPruningPointUTXOSet (scriptedWorld []) ConsensusRef.staging 7).run []).2 ∧
    ((syncPruningPointUTXOSet (scriptedWorld []) ConsensusRef.staging 7).run []).2 =
      [Event.StagingIsValidPruningPoint 7,
        Event.Enqueue (OutMsg.RequestPruningPointUTXOSet 7),
        Event.receiveAndInsertPruningPointUTXOSet ConsensusRef.staging 7,
        Event.StagingValidateAndInsertImportedPruningPoint 7,
        Event.OnPruningPointUTXOSetOverride,
        Event.StagingClearImportedPruningPointData] ∧
    ((syncPruningPointUTXOSet (scriptedWorld []) ConsensusRef.staging 7).run []).2.count
      Event.OnPruningPointUTXOSetOverride = 1 :=
  ⟨rfl, by decide,
    ((syncPruningPointUTXOSet_overrideHook (scriptedWorld []) ConsensusRef.staging 7 []).2.1
      (by decide)).2.2.2.2,
    (((syncPruningPointUTXOSet_overrideHook (scriptedWorld []) ConsensusRef.staging 7 []).2.2).1
      rfl).1⟩

/-- C14 as stated fails: IsValidPruningPoint returns true, the stream is fully received,
the imported pruning point is valid, the hook is called exactly once and returns no
error, but the deferred ClearImportedPruningPointData fails and syncPruningPointUTXOSet
panics instead of returning (true, nil). -/
theorem syncPruningPointUTXOSet_overrideHook_clearFails :
    (syncPruningPointUTXOSet clearFailsWorld ConsensusRef.staging 7).run [] =
      (Outcome.panicked "failed to clear imported pruning point data: %s",
        [Event.StagingIsValidPruningPoint 7,
          Event.Enqueue (OutMsg.RequestPruningPointUTXOSet 7),
          Event.receiveAndInsertPruningPointUTXOSet ConsensusRef.staging 7,
          Event.StagingValidateAndInsertImportedPruningPoint 7,
          Event.OnPruningPointUTXOSetOverride,
          Event.StagingClearImportedPruningPointData]) ∧
    ((syncPruningPointUTXOSet clearFailsWorld ConsensusRef.staging 7).run []).2.count
      Event.OnPruningPointUTXOSetOverride = 1 ∧
    clearFailsWorld.OnPruningPointUTXOSetOverride
      [Event.StagingIsValidPruningPoint 7,
        Event.Enqueue (OutMsg.RequestPruningPointUTXOSet 7),
        Event.receiveAndInsertPruningPointUTXOSet ConsensusRef.staging 7,
        Event.StagingValidateAndInsertImportedPruningPoint 7] = none ∧
    ((syncPruningPointUTXOSet clearFailsWorld ConsensusRef.staging 7).run []).1 ≠
      Outcome.returned (true, none) := by
  refine ⟨rfl, by decide, rfl, ?_⟩
  show Outcome.panicked "failed to clear imported pruning point data: %s" ≠
    Outcome.returned (true, none)
  simp

/-! ## C15: the index into the pruning points -/

/-- C15 at a concrete frame: the local pruning point 1 differs from the proof pruning
point 7, the peer sends a PruningPoints frame with an empty header list, the finality
check on the empty list succeeds and reports no violation, and the index expression
`headers[len(headers)-1]` of line 286 panics: the function returns neither nil nor an
error. -/
theorem validateAndInsertPruningPoints_emptyFrame_panics :
    emptyFrameWorld.PruningPoint [] = Except.ok 1 ∧
    emptyFrameWorld.Dequeue [Event.PruningPoint] =
      Except.ok (Message.PruningPoints ⟨[]⟩) ∧
    emptyFrameWorld.ArePruningPointsViolatingFinality
      [Event.PruningPoint, Event.Dequeue] [] = Except.ok false ∧
    (validateAndInsertPruningPoints emptyFrameWorld 7).run [] =
      (Outcome.panicked "index out of range [-1]",
        [Event.PruningPoint, Event.Dequeue, Event.ArePruningPointsViolatingFinality []]) ∧
    ((validateAndInsertPruningPoints emptyFrameWorld 7).run []).1.isReturned = false :=
  ⟨rfl, rfl, rfl, rfl, rfl⟩

/-- The index of line 286 is the only way for validateAndInsertPruningPoints not to
return: the run never lacks fuel, and it panics exactly when the frame is received, the
finality check succeeds and reports no violation, and the header list is empty. -/
theorem validateAndInsertPruningPoints_isReturned_iff (w : World)
    (proofPruningPoint : DomainHash) (tr : List Event) :
    ((validateAndInsertPruningPoints w proofPruningPoint).run tr).1.isReturned = false ↔
      ∃ currentPruningPoint m,
        w.PruningPoint tr = Except.ok currentPruningPoint ∧
        currentPruningPoint ≠ proofPruningPoint ∧
        w.Dequeue (tr ++ [Event.PruningPoint]) = Except.ok (Message.PruningPoints m) ∧
        w.ArePruningPointsViolatingFinality (tr ++ [Event.PruningPoint, Event.Dequeue])
          (m.Headers.map w.BlockHeaderToDomainBlockHeader) = Except.ok false ∧
        m.Headers = [] := by
  rw [validateAndInsertPruningPoints_run]
  rcases h1 : w.PruningPoint tr with err | cur
  · simp [Outcome.isReturned]
  · by_cases hc : cur = proofPruningPoint
    · simp [Outcome.isReturned, hc]
    · rcases h2 : w.Dequeue (tr ++ [Event.PruningPoint]) with err | msg
      · simp [Outcome.isReturned, hc]
      · cases msg with
        | PruningPoints m =>
          obtain ⟨headers⟩ := m
          cases headers with
          | nil =>
            rcases h3 : w.ArePruningPointsViolatingFinality
              (tr ++ [Event.PruningPoint, Event.Dequeue]) [] with err | viol
            · simp [Outcome.isReturned, hc, h3]
            · cases viol <;> simp [Outcome.isReturned, hc, h3]
          | cons h t =>
            rcases h3 : w.ArePruningPointsViolatingFinality
              (tr ++ [Event.PruningPoint, Event.Dequeue])
              (w.BlockHeaderToDomainBlockHeader h ::
                List.map w.BlockHeaderToDomainBlockHeader t) with err | viol
            · simp [Outcome.isReturned, hc, h3]
            · cases viol
              · simp only [hc, if_false, List.map_cons, h3]
                rcases hl : (w.BlockHeaderToDomainBlockHeader h ::
                  List.map w.BlockHeaderToDomainBlockHeader t).getLast? with _ | lastHeader
                · simp at hl
                · simp only []
                  split <;> simp [Outcome.isReturned]
              · simp [Outcome.isReturned, hc, h3]
        | _ => simp [Outcome.isReturned, hc]

end Kaspad
